import Mathlib

/-!
Shallow embedding of the `LocalStorageManager` store layer of the TODO-templates
application (src/script.js, with the older flat-items variant in
src/unnamed/part_000).  Ids produced by `crypto.randomUUID()` are modelled by a
counter carried in the store state (freshness is the only property the code
relies on); `Date.now()` is modelled by an explicit `now : Nat` argument to each
mutating operation.  JavaScript objects that may lack a field (`sections` /
`items` on legacy-shaped records, optional arguments) are modelled with
`Option`.  Persistence (`_saveData`) is a write-through of the in-memory state
and is the identity on that state, so it is not modelled separately.
-/

namespace TodoStore

/-- Template-scope item: `{ text }` (no id, no completion). -/
structure TItem where
  text : String
deriving Repr, DecidableEq

/-- Template-scope section: `{ id, title, items }`. -/
structure TSection where
  id : Nat
  title : String
  items : List TItem
deriving Repr, DecidableEq

/-- A Template record.  `sections` is `none` when the stored object has no
`sections` field (legacy flat shape); `items` is the legacy flat item list. -/
structure Template where
  id : Nat
  title : String
  sections : Option (List TSection)
  items : Option (List TItem)
  createdAt : Nat
  updatedAt : Nat
deriving Repr, DecidableEq

/-- Group-scope item: `{ id, text, completed }`. -/
structure GItem where
  id : Nat
  text : String
  completed : Bool
deriving Repr, DecidableEq

/-- Group-scope section: `{ id, title, items }`. -/
structure GSection where
  id : Nat
  title : String
  items : List GItem
deriving Repr, DecidableEq

/-- A Group record.  As for `Template`, `sections = none` models an absent
`sections` field (legacy flat shape with flat `items`). -/
structure Group where
  id : Nat
  templateId : Option Nat
  status : String
  title : String
  sections : Option (List GSection)
  items : Option (List GItem)
  createdAt : Nat
  updatedAt : Nat
deriving Repr, DecidableEq

/-- The `this.data` object: `{ templates, groups }`. -/
structure StoreData where
  templates : List Template
  groups : List Group
deriving Repr, DecidableEq

/-- The store state: the in-memory data plus the id-generation counter that
models the stream of fresh `crypto.randomUUID()` values. -/
structure Store where
  data : StoreData
  nextId : Nat
deriving Repr, DecidableEq

/-- Caller-supplied section data: `{title: "Section Title", items: ["Item1"]}`. -/
structure SectionData where
  title : String
  items : List String
deriving Repr, DecidableEq

/-- `_getDefaultData()`: `{ templates: [], groups: [] }`. -/
def _getDefaultData : StoreData := { templates := [], groups := [] }

/-- The raw parse result of a stored blob: each top-level key may be absent. -/
structure RawData where
  templates : Option (List Template)
  groups : Option (List Group)
deriving Repr, DecidableEq

/-- `_loadData()`.  The storage slot is modelled as `none` when
`localStorage.getItem` returns null, `some (Except.error e)` when `JSON.parse`
throws, and `some (Except.ok d)` when it parses to `d`. -/
def _loadData (stored : Option (Except String RawData)) : StoreData :=
  match stored with
  | none => _getDefaultData
  | some (Except.error _) => _getDefaultData
  | some (Except.ok d) =>
      { templates := d.templates.getD [], groups := d.groups.getD [] }

/-- `_generateId()`: the counter model hands out the next id. -/
def _generateId (c : Nat) : Nat × Nat := (c, c + 1)

/-- `getTemplates()`. -/
def getTemplates (s : Store) : List Template := s.data.templates

/-- Build one template section from `sectionsData` entry:
`{ id: gen(), title: sec.title, items: sec.items.map(text => ({text})) }`. -/
def buildTSection (sec : SectionData) (c : Nat) : TSection × Nat :=
  let (sid, c) := _generateId c
  (⟨sid, sec.title, sec.items.map (fun text => ⟨text⟩)⟩, c)

/-- `sectionsData.map(...)` with sequential id generation. -/
def buildTSections : List SectionData → Nat → List TSection × Nat
  | [], c => ([], c)
  | sec :: rest, c =>
      let (ts, c) := buildTSection sec c
      let (tss, c) := buildTSections rest c
      (ts :: tss, c)

/-- `createTemplate(title, sectionsData)`. -/
def createTemplate (s : Store) (now : Nat) (title : String)
    (sectionsData : List SectionData) : Template × Store :=
  let (sections, c) := buildTSections sectionsData s.nextId
  let (tid, c) := _generateId c
  let t : Template :=
    { id := tid, title := title, sections := some sections, items := none,
      createdAt := now, updatedAt := now }
  (t, { data := { templates := s.data.templates ++ [t], groups := s.data.groups },
        nextId := c })

/-- Replace the first template whose id matches (the object `find` returned and
the code mutated in place). -/
def replaceFirstTemplate : List Template → Nat → Template → List Template
  | [], _, _ => []
  | t :: rest, tid, t' =>
      if t.id == tid then t' :: rest
      else t :: replaceFirstTemplate rest tid t'

/-- `updateTemplate(id, title, sectionsData)`; `none` arguments model
`undefined`. -/
def updateTemplate (s : Store) (now : Nat) (id : Nat) (title? : Option String)
    (sectionsData? : Option (List SectionData)) : Option Template × Store :=
  match s.data.templates.find? (fun t => t.id == id) with
  | none => (none, s)
  | some t =>
      let t := match title? with
        | some ti => { t with title := ti }
        | none => t
      let (t, c) := match sectionsData? with
        | some sd =>
            let (secs, c) := buildTSections sd s.nextId
            ({ t with sections := some secs }, c)
        | none => (t, s.nextId)
      let t := { t with updatedAt := now }
      (some t,
       { data := { templates := replaceFirstTemplate s.data.templates id t,
                   groups := s.data.groups },
         nextId := c })

/-- `deleteTemplate(id)`: `templates.filter(t => t.id !== id)`. -/
def deleteTemplate (s : Store) (id : Nat) : Store :=
  { s with data := { s.data with
      templates := s.data.templates.filter (fun t => t.id != id) } }

/-- `duplicateTemplate(templateId)`. -/
def duplicateTemplate (s : Store) (now : Nat) (templateId : Nat) :
    Option Template × Store :=
  match s.data.templates.find? (fun t => t.id == templateId) with
  | none => (none, s)
  | some t =>
      let sectionsData := (t.sections.getD []).map
        (fun sec => SectionData.mk sec.title (sec.items.map (fun i => i.text)))
      let sectionsData :=
        if (t.sections.isNone || (t.sections.getD []).length == 0)
            && t.items.isSome then
          sectionsData ++ [SectionData.mk "一般" ((t.items.getD []).map (fun i => i.text))]
        else sectionsData
      let r := createTemplate s now (t.title ++ " のコピー") sectionsData
      (some r.1, r.2)

/-- `getGroups(statusFilter)`. -/
def getGroups (s : Store) (statusFilter : String) : List Group :=
  if statusFilter == "all" then s.data.groups
  else s.data.groups.filter (fun g => g.status == statusFilter)

/-- Copy one template item into a group item with a fresh id. -/
def copyGItem (it : TItem) (c : Nat) : GItem × Nat :=
  let (iid, c) := _generateId c
  (⟨iid, it.text, false⟩, c)

/-- `sec.items.map(item => ({id: gen(), text: item.text, completed: false}))`. -/
def copyGItems : List TItem → Nat → List GItem × Nat
  | [], c => ([], c)
  | it :: rest, c =>
      let (gi, c) := copyGItem it c
      let (gis, c) := copyGItems rest c
      (gi :: gis, c)

/-- Copy one template section into a group section (section id generated before
its items, as in the object literal). -/
def copyGSection (sec : TSection) (c : Nat) : GSection × Nat :=
  let (sid, c) := _generateId c
  let (items, c) := copyGItems sec.items c
  (⟨sid, sec.title, items⟩, c)

/-- `(template.sections || []).map(...)` with sequential id generation. -/
def copyGSections : List TSection → Nat → List GSection × Nat
  | [], c => ([], c)
  | sec :: rest, c =>
      let (gs, c) := copyGSection sec c
      let (gss, c) := copyGSections rest c
      (gs :: gss, c)

/-- `createGroupFromTemplate(templateId)`. -/
def createGroupFromTemplate (s : Store) (now : Nat) (templateId : Nat) :
    Option Group × Store :=
  match s.data.templates.find? (fun t => t.id == templateId) with
  | none => (none, s)
  | some t =>
      let (groupSections, c) := copyGSections (t.sections.getD []) s.nextId
      let (groupSections, c) :=
        if t.sections.isNone && t.items.isSome then
          let (sid, c) := _generateId c
          let (items, c) := copyGItems (t.items.getD []) c
          (groupSections ++ [⟨sid, "一般", items⟩], c)
        else (groupSections, c)
      let (gid, c) := _generateId c
      let g : Group :=
        { id := gid, templateId := some t.id, status := "active",
          title := t.title, sections := some groupSections, items := none,
          createdAt := now, updatedAt := now }
      (some g,
       { data := { templates := s.data.templates, groups := s.data.groups ++ [g] },
         nextId := c })

/-- `sec.items.map(text => ({id: gen(), text, completed: false}))`. -/
def buildGItems : List String → Nat → List GItem × Nat
  | [], c => ([], c)
  | text :: rest, c =>
      let (iid, c) := _generateId c
      let (gis, c) := buildGItems rest c
      (⟨iid, text, false⟩ :: gis, c)

/-- Build one group section from caller-supplied data (`createGroup`). -/
def buildGSection (sec : SectionData) (c : Nat) : GSection × Nat :=
  let (sid, c) := _generateId c
  let (items, c) := buildGItems sec.items c
  (⟨sid, sec.title, items⟩, c)

/-- `sectionsData.map(...)` for `createGroup`. -/
def buildGSections : List SectionData → Nat → List GSection × Nat
  | [], c => ([], c)
  | sec :: rest, c =>
      let (gs, c) := buildGSection sec c
      let (gss, c) := buildGSections rest c
      (gs :: gss, c)

/-- `createGroup(title, sectionsData = [])`. -/
def createGroup (s : Store) (now : Nat) (title : String)
    (sectionsData : List SectionData) : Group × Store :=
  let (sections, c) := buildGSections sectionsData s.nextId
  let (gid, c) := _generateId c
  let g : Group :=
    { id := gid, templateId := none, status := "active", title := title,
      sections := some sections, items := none, createdAt := now, updatedAt := now }
  (g, { data := { templates := s.data.templates, groups := s.data.groups ++ [g] },
        nextId := c })

/-- Flip the first item with the given id (`section.items.find` followed by the
in-place `todo.completed = !todo.completed`); `none` when absent. -/
def toggleInItems : List GItem → Nat → Option (List GItem)
  | [], _ => none
  | it :: rest, todoId =>
      if it.id == todoId then some ({ it with completed := !it.completed } :: rest)
      else match toggleInItems rest todoId with
        | some rest' => some (it :: rest')
        | none => none

/-- Walk the sections in order, toggling in the first section that contains the
item; `none` when no section does. -/
def toggleInSections : List GSection → Nat → Option (List GSection)
  | [], _ => none
  | sec :: rest, todoId =>
      match toggleInItems sec.items todoId with
      | some items' => some ({ sec with items := items' } :: rest)
      | none =>
          match toggleInSections rest todoId with
          | some rest' => some (sec :: rest')
          | none => none

/-- Replace the first group whose id matches (the object `find` returned and the
code mutated in place). -/
def replaceFirstGroup : List Group → Nat → Group → List Group
  | [], _, _ => []
  | g :: rest, gid, g' =>
      if g.id == gid then g' :: rest
      else g :: replaceFirstGroup rest gid g'

/-- Store after mutating the found group object in place. -/
def putGroup (s : Store) (gid : Nat) (g' : Group) : Store :=
  { s with data := { s.data with
      groups := replaceFirstGroup s.data.groups gid g' } }

/-- `toggleTodoCompletion(groupId, todoId)`. -/
def toggleTodoCompletion (s : Store) (now : Nat) (groupId todoId : Nat) :
    Option Group × Store :=
  match s.data.groups.find? (fun g => g.id == groupId) with
  | none => (none, s)
  | some g =>
      let legacy : Option Group × Store :=
        match g.items with
        | some its =>
            match toggleInItems its todoId with
            | some its' =>
                let g' := { g with items := some its', updatedAt := now }
                (some g', putGroup s groupId g')
            | none => (none, s)
        | none => (none, s)
      match g.sections with
      | some secs =>
          match toggleInSections secs todoId with
          | some secs' =>
              let g' := { g with sections := some secs', updatedAt := now }
              (some g', putGroup s groupId g')
          | none => legacy
      | none => legacy

/-- The legacy branch of `checkAllCompleted`:
`group.items ? items.length > 0 && items.every(i => i.completed) : false`. -/
def checkLegacyCompleted (g : Group) : Bool :=
  match g.items with
  | some its => decide (0 < its.length) && its.all (fun i => i.completed)
  | none => false

/-- The `sections.every` loop with its closure-captured `hasItems` flag,
including the short-circuit of `every`; returns `(hasItems, allSectionsDone)`. -/
def checkSectionsLoop : List GSection → Bool → Bool × Bool
  | [], hasItems => (hasItems, true)
  | sec :: rest, hasItems =>
      let hasItems := hasItems || decide (0 < sec.items.length)
      if sec.items.all (fun i => i.completed) then checkSectionsLoop rest hasItems
      else (hasItems, false)

/-- `checkAllCompleted(groupId)`. -/
def checkAllCompleted (s : Store) (groupId : Nat) : Bool :=
  match s.data.groups.find? (fun g => g.id == groupId) with
  | none => false
  | some g =>
      match g.sections with
      | some secs =>
          if 0 < secs.length then
            let (hasItems, allSectionsDone) := checkSectionsLoop secs false
            hasItems && allSectionsDone
          else checkLegacyCompleted g
      | none => checkLegacyCompleted g

/-- `archiveGroup(groupId)`. -/
def archiveGroup (s : Store) (now : Nat) (groupId : Nat) : Option Group × Store :=
  match s.data.groups.find? (fun g => g.id == groupId) with
  | none => (none, s)
  | some g =>
      let g' := { g with status := "archived", updatedAt := now }
      (some g', putGroup s groupId g')

/-- `unarchiveGroup(groupId)`. -/
def unarchiveGroup (s : Store) (now : Nat) (groupId : Nat) : Option Group × Store :=
  match s.data.groups.find? (fun g => g.id == groupId) with
  | none => (none, s)
  | some g =>
      let g' := { g with status := "active", updatedAt := now }
      (some g', putGroup s groupId g')

/-- `deleteGroup(groupId)`: `groups.filter(g => g.id !== groupId)`. -/
def deleteGroup (s : Store) (groupId : Nat) : Store :=
  { s with data := { s.data with
      groups := s.data.groups.filter (fun g => g.id != groupId) } }

/-! ## Id collection, reachability and store invariants -/

/-- The nested ids of a list of group sections, in document order. -/
def gSectionIdList (secs : List GSection) : List Nat :=
  secs.flatMap (fun sec => sec.id :: sec.items.map (fun i => i.id))

/-- Every id occurring in a group (the group id, its section ids, its item ids,
including legacy flat items). -/
def groupIds (g : Group) : List Nat :=
  g.id :: (gSectionIdList (g.sections.getD [])
    ++ (g.items.getD []).map (fun i => i.id))

/-- Every id occurring in a template (the template id and its section ids). -/
def templateIds (t : Template) : List Nat :=
  t.id :: (t.sections.getD []).map (fun sec => sec.id)

/-- Every id occurring anywhere in the store. -/
def storeIds (s : Store) : List Nat :=
  s.data.templates.flatMap templateIds ++ s.data.groups.flatMap groupIds

/-- The entity-level ids (one per Template, one per Group). -/
def entityIds (s : Store) : List Nat :=
  s.data.templates.map Template.id ++ s.data.groups.map Group.id

/-- A fresh store, as produced when nothing was persisted. -/
def initialStore : Store := { data := _getDefaultData, nextId := 0 }

/-- One public mutating operation of the store. -/
inductive Step : Store → Store → Prop where
  | createTemplateStep (s : Store) (now : Nat) (title : String)
      (sd : List SectionData) : Step s (createTemplate s now title sd).2
  | updateTemplateStep (s : Store) (now id : Nat) (title? : Option String)
      (sd? : Option (List SectionData)) :
      Step s (updateTemplate s now id title? sd?).2
  | deleteTemplateStep (s : Store) (id : Nat) : Step s (deleteTemplate s id)
  | duplicateTemplateStep (s : Store) (now tid : Nat) :
      Step s (duplicateTemplate s now tid).2
  | createGroupFromTemplateStep (s : Store) (now tid : Nat) :
      Step s (createGroupFromTemplate s now tid).2
  | createGroupStep (s : Store) (now : Nat) (title : String)
      (sd : List SectionData) : Step s (createGroup s now title sd).2
  | toggleStep (s : Store) (now gid iid : Nat) :
      Step s (toggleTodoCompletion s now gid iid).2
  | archiveStep (s : Store) (now gid : Nat) : Step s (archiveGroup s now gid).2
  | unarchiveStep (s : Store) (now gid : Nat) :
      Step s (unarchiveGroup s now gid).2
  | deleteGroupStep (s : Store) (gid : Nat) : Step s (deleteGroup s gid)

/-- States reachable from the fresh store through the public operations. -/
def Reachable (s : Store) : Prop :=
  Relation.ReflTransGen Step initialStore s

/-- The store invariant: every id in the store is below the freshness counter,
entity ids are pairwise distinct, and every group status is `active` or
`archived`. -/
def StoreInv (s : Store) : Prop :=
  (∀ i ∈ storeIds s, i < s.nextId) ∧ (entityIds s).Nodup ∧
    (∀ g ∈ s.data.groups, g.status = "active" ∨ g.status = "archived")

/-- Models an arbitrary in-place mutation, through the returned reference, of
the stored Group object with the given id (e.g. editing item texts, ids or
completion flags): the object reached by `find` is replaced by `f` of itself. -/
def mutateGroup (s : Store) (gid : Nat) (f : Group → Group) : Store :=
  match s.data.groups.find? (fun g => g.id == gid) with
  | none => s
  | some g => putGroup s gid (f g)

/-- An item with the given id is reachable in the group, via its sections or
via its legacy flat `items`. -/
def itemReachable (g : Group) (iid : Nat) : Prop :=
  (∃ sec ∈ g.sections.getD [], ∃ it ∈ sec.items, it.id = iid) ∨
  (∃ it ∈ g.items.getD [], it.id = iid)

/-! ### Concrete sample data used to exercise the theorems -/

def sampleTemplate : Template :=
  { id := 42, title := "T", sections := some [⟨1, "S", [⟨"a"⟩]⟩],
    items := none, createdAt := 0, updatedAt := 0 }

def sampleTStore : Store :=
  { data := { templates := [sampleTemplate], groups := [] }, nextId := 50 }

def sampleGroupA : Group :=
  { id := 1, templateId := none, status := "active", title := "A",
    sections := some [⟨2, "S", [⟨3, "x", false⟩]⟩], items := none,
    createdAt := 0, updatedAt := 0 }

def sampleStore1 : Store :=
  { data := { templates := [], groups := [sampleGroupA] }, nextId := 10 }

def sampleGroupB : Group :=
  { id := 1, templateId := none, status := "active", title := "A",
    sections := some [⟨2, "S", [⟨3, "x", true⟩]⟩], items := none,
    createdAt := 0, updatedAt := 0 }

def sampleStoreB : Store :=
  { data := { templates := [], groups := [sampleGroupB] }, nextId := 10 }

def sampleGroupArch : Group :=
  { id := 4, templateId := none, status := "archived", title := "Z",
    sections := some [], items := none, createdAt := 0, updatedAt := 0 }

def sampleStoreC : Store :=
  { data := { templates := [], groups := [sampleGroupA, sampleGroupArch] },
    nextId := 10 }

def sampleLegacyT : Template :=
  { id := 77, title := "L", sections := some [], items := some [⟨"p"⟩],
    createdAt := 0, updatedAt := 0 }

def sampleLegacyStore : Store :=
  { data := { templates := [sampleLegacyT], groups := [] }, nextId := 100 }

/-! ## Helper lemmas: id generation -/

/-- Ids consumed when copying a list of template sections into a group. -/
def tsecWeight (secs : List TSection) : Nat :=
  (secs.map (fun sec => 1 + sec.items.length)).sum

/-- Ids consumed when building group sections from caller-supplied data. -/
def sdWeight (sd : List SectionData) : Nat :=
  (sd.map (fun sec => 1 + sec.items.length)).sum

theorem range1_append (a m n : Nat) :
    List.range' a m ++ List.range' (a + m) n = List.range' a (m + n) := by
  have h := List.range'_append a m n 1
  rw [Nat.one_mul] at h
  rw [h, Nat.add_comm]

theorem buildTSections_snd (sd : List SectionData) (c : Nat) :
    (buildTSections sd c).2 = c + sd.length := by
  induction sd generalizing c with
  | nil => simp [buildTSections]
  | cons sec rest ih =>
      simp only [buildTSections, buildTSection, _generateId, ih, List.length_cons]
      omega

theorem buildTSections_ids (sd : List SectionData) (c : Nat) :
    ((buildTSections sd c).1).map TSection.id = List.range' c sd.length := by
  induction sd generalizing c with
  | nil => simp [buildTSections]
  | cons sec rest ih =>
      simp only [buildTSections, buildTSection, _generateId, List.map_cons, ih,
        List.length_cons, List.range'_succ]

theorem buildTSections_content (sd : List SectionData) (c : Nat) :
    List.Forall₂ (fun ts d => ts.title = d.title ∧ ts.items.map TItem.text = d.items)
      (buildTSections sd c).1 sd := by
  induction sd generalizing c with
  | nil => simp [buildTSections]
  | cons sec rest ih =>
      refine List.Forall₂.cons ⟨rfl, ?_⟩ (ih _)
      simp [buildTSection, _generateId, List.map_map, Function.comp_def]

theorem copyGItems_snd (tits : List TItem) (c : Nat) :
    (copyGItems tits c).2 = c + tits.length := by
  induction tits generalizing c with
  | nil => simp [copyGItems]
  | cons it rest ih =>
      simp only [copyGItems, copyGItem, _generateId, ih, List.length_cons]
      omega

theorem copyGItems_ids (tits : List TItem) (c : Nat) :
    (copyGItems tits c).1.map GItem.id = List.range' c tits.length := by
  induction tits generalizing c with
  | nil => simp [copyGItems]
  | cons it rest ih =>
      simp only [copyGItems, copyGItem, _generateId, List.map_cons, ih,
        List.length_cons, List.range'_succ]

theorem copyGItems_content (tits : List TItem) (c : Nat) :
    List.Forall₂ (fun gi ti => gi.text = ti.text ∧ gi.completed = false)
      (copyGItems tits c).1 tits := by
  induction tits generalizing c with
  | nil => simp [copyGItems]
  | cons it rest ih =>
      exact List.Forall₂.cons ⟨rfl, rfl⟩ (ih _)

theorem copyGSections_snd (tsecs : List TSection) (c : Nat) :
    (copyGSections tsecs c).2 = c + tsecWeight tsecs := by
  induction tsecs generalizing c with
  | nil => simp [copyGSections, tsecWeight]
  | cons sec rest ih =>
      simp only [copyGSections, copyGSection, _generateId, copyGItems_snd, ih,
        tsecWeight, List.map_cons, List.sum_cons]
      omega

theorem copyGSections_ids (tsecs : List TSection) (c : Nat) :
    gSectionIdList (copyGSections tsecs c).1 = List.range' c (tsecWeight tsecs) := by
  induction tsecs generalizing c with
  | nil => simp [copyGSections, gSectionIdList, tsecWeight]
  | cons sec rest ih =>
      have hw : tsecWeight (sec :: rest) =
          (1 + sec.items.length) + tsecWeight rest := by
        simp [tsecWeight]
      rw [hw]
      have ih' := ih (c + 1 + sec.items.length)
      simp only [gSectionIdList] at ih' ⊢
      simp only [copyGSections, copyGSection, _generateId, List.flatMap_cons,
        copyGItems_ids, copyGItems_snd]
      rw [ih']
      rw [show (c :: List.range' (c + 1) sec.items.length) =
          List.range' c (sec.items.length + 1) from (List.range'_succ _ _ _).symm]
      rw [show c + 1 + sec.items.length = c + (sec.items.length + 1) by omega]
      rw [range1_append]
      rw [show sec.items.length + 1 + tsecWeight rest =
          1 + sec.items.length + tsecWeight rest by omega]

theorem copyGSections_content (tsecs : List TSection) (c : Nat) :
    List.Forall₂ (fun gs ts => gs.title = ts.title ∧
        List.Forall₂ (fun gi ti => gi.text = ti.text ∧ gi.completed = false)
          gs.items ts.items)
      (copyGSections tsecs c).1 tsecs := by
  induction tsecs generalizing c with
  | nil => simp [copyGSections]
  | cons sec rest ih =>
      exact List.Forall₂.cons ⟨rfl, copyGItems_content _ _⟩ (ih _)

theorem buildGItems_snd (texts : List String) (c : Nat) :
    (buildGItems texts c).2 = c + texts.length := by
  induction texts generalizing c with
  | nil => simp [buildGItems]
  | cons t rest ih =>
      simp only [buildGItems, _generateId, ih, List.length_cons]
      omega

theorem buildGItems_ids (texts : List String) (c : Nat) :
    (buildGItems texts c).1.map GItem.id = List.range' c texts.length := by
  induction texts generalizing c with
  | nil => simp [buildGItems]
  | cons t rest ih =>
      simp only [buildGItems, _generateId, List.map_cons, ih, List.length_cons,
        List.range'_succ]

theorem buildGSections_snd (sd : List SectionData) (c : Nat) :
    (buildGSections sd c).2 = c + sdWeight sd := by
  induction sd generalizing c with
  | nil => simp [buildGSections, sdWeight]
  | cons sec rest ih =>
      simp only [buildGSections, buildGSection, _generateId, buildGItems_snd, ih,
        sdWeight, List.map_cons, List.sum_cons]
      omega

theorem buildGSections_ids (sd : List SectionData) (c : Nat) :
    gSectionIdList (buildGSections sd c).1 = List.range' c (sdWeight sd) := by
  induction sd generalizing c with
  | nil => simp [buildGSections, gSectionIdList, sdWeight]
  | cons sec rest ih =>
      have hw : sdWeight (sec :: rest) = (1 + sec.items.length) + sdWeight rest := by
        simp [sdWeight]
      rw [hw]
      have ih' := ih (c + 1 + sec.items.length)
      simp only [gSectionIdList] at ih' ⊢
      simp only [buildGSections, buildGSection, _generateId, List.flatMap_cons,
        buildGItems_ids, buildGItems_snd]
      rw [ih']
      rw [show (c :: List.range' (c + 1) sec.items.length) =
          List.range' c (sec.items.length + 1) from (List.range'_succ _ _ _).symm]
      rw [show c + 1 + sec.items.length = c + (sec.items.length + 1) by omega]
      rw [range1_append]
      rw [show sec.items.length + 1 + sdWeight rest =
          1 + sec.items.length + sdWeight rest by omega]

/-! ## Helper lemmas: replacing the record returned by `find` -/

theorem replaceFirstTemplate_map {α : Type} (f : Template → α) :
    ∀ (l : List Template) (tid : Nat) (t₀ t' : Template),
      l.find? (fun t => t.id == tid) = some t₀ → f t' = f t₀ →
      (replaceFirstTemplate l tid t').map f = l.map f := by
  intro l
  induction l with
  | nil => intro tid t₀ t' h _; simp at h
  | cons x rest ih =>
      intro tid t₀ t' hf hft
      cases hx : x.id == tid with
      | true =>
          simp only [List.find?_cons, hx] at hf
          injection hf with hf
          subst hf
          simp [replaceFirstTemplate, hx, hft]
      | false =>
          simp only [List.find?_cons, hx] at hf
          simp only [replaceFirstTemplate, hx, Bool.false_eq_true, if_false,
            List.map_cons]
          rw [ih tid t₀ t' hf hft]

theorem replaceFirstGroup_map {α : Type} (f : Group → α) :
    ∀ (l : List Group) (gid : Nat) (g₀ g' : Group),
      l.find? (fun g => g.id == gid) = some g₀ → f g' = f g₀ →
      (replaceFirstGroup l gid g').map f = l.map f := by
  intro l
  induction l with
  | nil => intro gid g₀ g' h _; simp at h
  | cons x rest ih =>
      intro gid g₀ g' hf hfg
      cases hx : x.id == gid with
      | true =>
          simp only [List.find?_cons, hx] at hf
          injection hf with hf
          subst hf
          simp [replaceFirstGroup, hx, hfg]
      | false =>
          simp only [List.find?_cons, hx] at hf
          simp only [replaceFirstGroup, hx, Bool.false_eq_true, if_false,
            List.map_cons]
          rw [ih gid g₀ g' hf hfg]

theorem replaceFirstGroup_flatMap {α : Type} (f : Group → List α) :
    ∀ (l : List Group) (gid : Nat) (g₀ g' : Group),
      l.find? (fun g => g.id == gid) = some g₀ → f g' = f g₀ →
      (replaceFirstGroup l gid g').flatMap f = l.flatMap f := by
  intro l
  induction l with
  | nil => intro gid g₀ g' h _; simp at h
  | cons x rest ih =>
      intro gid g₀ g' hf hfg
      cases hx : x.id == gid with
      | true =>
          simp only [List.find?_cons, hx] at hf
          injection hf with hf
          subst hf
          simp [replaceFirstGroup, hx, hfg]
      | false =>
          simp only [List.find?_cons, hx] at hf
          simp only [replaceFirstGroup, hx, Bool.false_eq_true, if_false,
            List.flatMap_cons]
          rw [ih gid g₀ g' hf hfg]

theorem find?_replaceFirstGroup :
    ∀ (l : List Group) (gid : Nat) (g₀ g' : Group),
      l.find? (fun g => g.id == gid) = some g₀ → g'.id = gid →
      (replaceFirstGroup l gid g').find? (fun g => g.id == gid) = some g' := by
  intro l
  induction l with
  | nil => intro gid g₀ g' h _; simp at h
  | cons x rest ih =>
      intro gid g₀ g' hf hg
      cases hx : x.id == gid with
      | true =>
          simp only [replaceFirstGroup, hx, if_pos]
          simp [List.find?_cons, hg]
      | false =>
          simp only [List.find?_cons, hx] at hf
          simp only [replaceFirstGroup, hx, Bool.false_eq_true, if_false]
          simp only [List.find?_cons, hx]
          exact ih gid g₀ g' hf hg

/-! ## Helper lemmas: toggling -/

theorem toggleInItems_ids :
    ∀ (its its' : List GItem) (iid : Nat), toggleInItems its iid = some its' →
      its'.map GItem.id = its.map GItem.id := by
  intro its
  induction its with
  | nil => intro its' iid h; simp [toggleInItems] at h
  | cons it rest ih =>
      intro its' iid h
      simp only [toggleInItems] at h
      by_cases hid : it.id == iid
      · rw [if_pos hid] at h
        injection h with h
        subst h
        simp
      · rw [if_neg hid] at h
        cases hrest : toggleInItems rest iid with
        | none => rw [hrest] at h; exact absurd h (by simp)
        | some rest' =>
            rw [hrest] at h
            injection h with h
            subst h
            simp [ih rest' iid hrest]

theorem toggleInItems_twice :
    ∀ (its its' : List GItem) (iid : Nat), toggleInItems its iid = some its' →
      toggleInItems its' iid = some its := by
  intro its
  induction its with
  | nil => intro its' iid h; simp [toggleInItems] at h
  | cons it rest ih =>
      intro its' iid h
      simp only [toggleInItems] at h
      by_cases hid : it.id == iid
      · rw [if_pos hid] at h
        injection h with h
        subst h
        simp only [toggleInItems, if_pos hid]
        simp
      · rw [if_neg hid] at h
        cases hrest : toggleInItems rest iid with
        | none => rw [hrest] at h; exact absurd h (by simp)
        | some rest' =>
            rw [hrest] at h
            injection h with h
            subst h
            simp only [toggleInItems, if_neg hid, ih rest' iid hrest]

theorem toggleInItems_isSome :
    ∀ (its : List GItem) (iid : Nat), (∃ it ∈ its, it.id = iid) →
      ∃ its', toggleInItems its iid = some its' := by
  intro its
  induction its with
  | nil => intro iid h; simp at h
  | cons it rest ih =>
      intro iid h
      simp only [toggleInItems]
      by_cases hid : it.id == iid
      · exact ⟨_, by rw [if_pos hid]⟩
      · rcases h with ⟨x, hx, hxid⟩
        rcases List.mem_cons.mp hx with rfl | hx
        · exact absurd hxid (by simpa using hid)
        · rcases ih iid ⟨x, hx, hxid⟩ with ⟨rest', hrest⟩
          exact ⟨_, by rw [if_neg hid, hrest]⟩

theorem toggleInSections_ids :
    ∀ (secs secs' : List GSection) (iid : Nat),
      toggleInSections secs iid = some secs' →
      gSectionIdList secs' = gSectionIdList secs := by
  intro secs
  induction secs with
  | nil => intro secs' iid h; simp [toggleInSections] at h
  | cons sec rest ih =>
      intro secs' iid h
      simp only [toggleInSections] at h
      cases hit : toggleInItems sec.items iid with
      | some items' =>
          rw [hit] at h
          injection h with h
          subst h
          simp [gSectionIdList, toggleInItems_ids _ _ _ hit]
      | none =>
          rw [hit] at h
          cases hrest : toggleInSections rest iid with
          | none => rw [hrest] at h; exact absurd h (by simp)
          | some rest' =>
              rw [hrest] at h
              injection h with h
              subst h
              have hids := ih rest' iid hrest
              simp only [gSectionIdList] at hids
              simp [gSectionIdList, hids]

theorem toggleInSections_twice :
    ∀ (secs secs' : List GSection) (iid : Nat),
      toggleInSections secs iid = some secs' →
      toggleInSections secs' iid = some secs := by
  intro secs
  induction secs with
  | nil => intro secs' iid h; simp [toggleInSections] at h
  | cons sec rest ih =>
      intro secs' iid h
      simp only [toggleInSections] at h
      cases hit : toggleInItems sec.items iid with
      | some items' =>
          rw [hit] at h
          injection h with h
          subst h
          simp only [toggleInSections, toggleInItems_twice _ _ _ hit]
      | none =>
          rw [hit] at h
          cases hrest : toggleInSections rest iid with
          | none => rw [hrest] at h; exact absurd h (by simp)
          | some rest' =>
              rw [hrest] at h
              injection h with h
              subst h
              simp only [toggleInSections, hit, ih rest' iid hrest]

theorem toggleInSections_isSome :
    ∀ (secs : List GSection) (iid : Nat),
      (∃ sec ∈ secs, ∃ it ∈ sec.items, it.id = iid) →
      ∃ secs', toggleInSections secs iid = some secs' := by
  intro secs
  induction secs with
  | nil => intro iid h; simp at h
  | cons sec rest ih =>
      intro iid h
      simp only [toggleInSections]
      cases hit : toggleInItems sec.items iid with
      | some items' => exact ⟨_, rfl⟩
      | none =>
          rcases h with ⟨x, hx, hexists⟩
          rcases List.mem_cons.mp hx with rfl | hx
          · rcases toggleInItems_isSome _ _ hexists with ⟨its', hits⟩
            rw [hits] at hit
            exact absurd hit (by simp)
          · rcases ih iid ⟨x, hx, hexists⟩ with ⟨rest', hrest⟩
            rw [hrest]
            exact ⟨_, rfl⟩

/-! ## Helper lemma: the `checkAllCompleted` section loop -/

theorem checkSectionsLoop_spec (secs : List GSection) (b : Bool) :
    ((checkSectionsLoop secs b).1 && (checkSectionsLoop secs b).2) =
      ((b || secs.any (fun sec => decide (0 < sec.items.length))) &&
        secs.all (fun sec => sec.items.all (fun i => i.completed))) := by
  induction secs generalizing b with
  | nil => simp [checkSectionsLoop]
  | cons sec rest ih =>
      simp only [checkSectionsLoop]
      by_cases hall : sec.items.all (fun i => i.completed) = true
      · rw [if_pos hall, ih]
        simp [List.any_cons, List.all_cons, hall, Bool.or_assoc]
      · rw [if_neg hall]
        rw [Bool.not_eq_true] at hall
        simp [List.all_cons, hall]

/-! ## Invariant preservation -/

theorem entityIds_subset_storeIds (s : Store) :
    ∀ i ∈ entityIds s, i ∈ storeIds s := by
  intro i hi
  simp only [entityIds, List.mem_append, List.mem_map] at hi
  simp only [storeIds, List.mem_append, List.mem_flatMap]
  rcases hi with ⟨t, ht, rfl⟩ | ⟨g, hg, rfl⟩
  · exact Or.inl ⟨t, ht, by simp [templateIds]⟩
  · exact Or.inr ⟨g, hg, by simp [groupIds]⟩

theorem mem_replaceFirstTemplate :
    ∀ (l : List Template) (tid : Nat) (t' x : Template),
      x ∈ replaceFirstTemplate l tid t' → x ∈ l ∨ x = t' := by
  intro l
  induction l with
  | nil => intro tid t' x hx; simp [replaceFirstTemplate] at hx
  | cons y rest ih =>
      intro tid t' x hx
      simp only [replaceFirstTemplate] at hx
      by_cases hy : y.id == tid
      · rw [if_pos hy] at hx
        rcases List.mem_cons.mp hx with rfl | hx
        · exact Or.inr rfl
        · exact Or.inl (List.mem_cons_of_mem _ hx)
      · rw [if_neg hy] at hx
        rcases List.mem_cons.mp hx with rfl | hx
        · exact Or.inl (List.mem_cons_self _ _)
        · rcases ih tid t' x hx with h | h
          · exact Or.inl (List.mem_cons_of_mem _ h)
          · exact Or.inr h

theorem mem_replaceFirstGroup :
    ∀ (l : List Group) (gid : Nat) (g' x : Group),
      x ∈ replaceFirstGroup l gid g' → x ∈ l ∨ x = g' := by
  intro l
  induction l with
  | nil => intro gid g' x hx; simp [replaceFirstGroup] at hx
  | cons y rest ih =>
      intro gid g' x hx
      simp only [replaceFirstGroup] at hx
      by_cases hy : y.id == gid
      · rw [if_pos hy] at hx
        rcases List.mem_cons.mp hx with rfl | hx
        · exact Or.inr rfl
        · exact Or.inl (List.mem_cons_of_mem _ hx)
      · rw [if_neg hy] at hx
        rcases List.mem_cons.mp hx with rfl | hx
        · exact Or.inl (List.mem_cons_self _ _)
        · rcases ih gid g' x hx with h | h
          · exact Or.inl (List.mem_cons_of_mem _ h)
          · exact Or.inr h

theorem nodup_entity_append (tids gids : List Nat) (x : Nat)
    (hnd : (tids ++ gids).Nodup) (hx : x ∉ tids ++ gids) :
    ((tids ++ [x]) ++ gids).Nodup := by
  have h1 : (tids ++ [x]) ++ gids = tids ++ (x :: gids) := by simp
  rw [h1, List.nodup_middle]
  exact List.Nodup.cons hx hnd

theorem nodup_entity_append_right (tids gids : List Nat) (x : Nat)
    (hnd : (tids ++ gids).Nodup) (hx : x ∉ tids ++ gids) :
    (tids ++ (gids ++ [x])).Nodup := by
  rw [← List.append_assoc]
  rw [(List.perm_append_singleton x (tids ++ gids)).nodup_iff]
  exact List.Nodup.cons hx hnd

theorem createTemplate_inv (s : Store) (now : Nat) (title : String)
    (sd : List SectionData) (h : StoreInv s) :
    StoreInv (createTemplate s now title sd).2 := by
  obtain ⟨hb, hn, hs⟩ := h
  rcases hbt : buildTSections sd s.nextId with ⟨secs, c⟩
  have hc : c = s.nextId + sd.length := by
    have := buildTSections_snd sd s.nextId
    rw [hbt] at this
    exact this
  have hids : secs.map TSection.id = List.range' s.nextId sd.length := by
    have := buildTSections_ids sd s.nextId
    rw [hbt] at this
    exact this
  refine ⟨?_, ?_, ?_⟩
  · intro i hi
    simp only [createTemplate, hbt, _generateId, storeIds, List.flatMap_append,
      List.mem_append, List.mem_flatMap] at hi ⊢
    rcases hi with (⟨t, ht, hit⟩ | ⟨t, ht, hit⟩) | ⟨g, hg, hig⟩
    · have : i ∈ storeIds s := by
        simp only [storeIds, List.mem_append, List.mem_flatMap]
        exact Or.inl ⟨t, ht, hit⟩
      have := hb i this
      omega
    · simp only [List.mem_singleton] at ht
      subst ht
      simp only [templateIds, Option.getD_some, List.mem_cons] at hit
      rcases hit with rfl | hit
      · omega
      · rw [hids] at hit
        have := List.mem_range'_1.mp hit
        omega
    · have : i ∈ storeIds s := by
        simp only [storeIds, List.mem_append, List.mem_flatMap]
        exact Or.inr ⟨g, hg, hig⟩
      have := hb i this
      omega
  · simp only [createTemplate, hbt, _generateId, entityIds, List.map_append,
      List.map_cons, List.map_nil]
    refine nodup_entity_append _ _ _ hn ?_
    intro hmem
    have : c < s.nextId := hb c (entityIds_subset_storeIds s c hmem)
    omega
  · intro g hg
    simp only [createTemplate, hbt, _generateId] at hg
    exact hs g hg

theorem createGroup_inv (s : Store) (now : Nat) (title : String)
    (sd : List SectionData) (h : StoreInv s) :
    StoreInv (createGroup s now title sd).2 := by
  obtain ⟨hb, hn, hs⟩ := h
  rcases hbg : buildGSections sd s.nextId with ⟨secs, c⟩
  have hc : c = s.nextId + sdWeight sd := by
    have := buildGSections_snd sd s.nextId
    rw [hbg] at this
    exact this
  have hids : gSectionIdList secs = List.range' s.nextId (sdWeight sd) := by
    have := buildGSections_ids sd s.nextId
    rw [hbg] at this
    exact this
  refine ⟨?_, ?_, ?_⟩
  · intro i hi
    simp only [createGroup, hbg, _generateId, storeIds, List.flatMap_append,
      List.mem_append, List.mem_flatMap] at hi ⊢
    rcases hi with ⟨t, ht, hit⟩ | (⟨g, hg, hig⟩ | ⟨g, hg, hig⟩)
    · have : i ∈ storeIds s := by
        simp only [storeIds, List.mem_append, List.mem_flatMap]
        exact Or.inl ⟨t, ht, hit⟩
      have := hb i this
      omega
    · have : i ∈ storeIds s := by
        simp only [storeIds, List.mem_append, List.mem_flatMap]
        exact Or.inr ⟨g, hg, hig⟩
      have := hb i this
      omega
    · simp only [List.mem_singleton] at hg
      subst hg
      simp only [groupIds, Option.getD_some, Option.getD_none, List.map_nil,
        List.append_nil, List.mem_cons] at hig
      rcases hig with rfl | hig
      · omega
      · rw [hids] at hig
        have := List.mem_range'_1.mp hig
        omega
  · simp only [createGroup, hbg, _generateId, entityIds, List.map_append,
      List.map_cons, List.map_nil]
    refine nodup_entity_append_right _ _ _ hn ?_
    intro hmem
    have : c < s.nextId := hb c (entityIds_subset_storeIds s c hmem)
    omega
  · intro g hg
    simp only [createGroup, hbg, _generateId] at hg
    rcases List.mem_append.mp hg with hg | hg
    · exact hs g hg
    · simp only [List.mem_singleton] at hg
      subst hg
      exact Or.inl rfl

/-! ## Shape lemmas for the mutating operations -/

theorem updateTemplate_some (s : Store) (now id : Nat) (title? : Option String)
    (sd? : Option (List SectionData)) (t₀ : Template)
    (hf : s.data.templates.find? (fun t => t.id == id) = some t₀) :
    ∃ t' c,
      updateTemplate s now id title? sd? =
        (some t',
         { data := { templates := replaceFirstTemplate s.data.templates id t',
                     groups := s.data.groups },
           nextId := c }) ∧
      t'.id = t₀.id ∧ t'.createdAt = t₀.createdAt ∧ t'.updatedAt = now ∧
      t'.title = title?.getD t₀.title ∧ t'.items = t₀.items ∧
      ((sd? = none ∧ t'.sections = t₀.sections ∧ c = s.nextId) ∨
       (∃ sd, sd? = some sd ∧
          t'.sections = some (buildTSections sd s.nextId).1 ∧
          c = (buildTSections sd s.nextId).2)) := by
  cases title? with
  | none =>
      cases sd? with
      | none =>
          refine ⟨{ t₀ with updatedAt := now }, s.nextId, ?_, rfl, rfl, rfl, rfl,
            rfl, Or.inl ⟨rfl, rfl, rfl⟩⟩
          simp [updateTemplate, hf]
      | some sd =>
          rcases hbt : buildTSections sd s.nextId with ⟨secs, c⟩
          refine ⟨{ t₀ with sections := some secs, updatedAt := now }, c, ?_, rfl,
            rfl, rfl, rfl, rfl, Or.inr ⟨sd, rfl, by rw [hbt], by rw [hbt]⟩⟩
          simp [updateTemplate, hf, hbt]
  | some ti =>
      cases sd? with
      | none =>
          refine ⟨{ t₀ with title := ti, updatedAt := now }, s.nextId, ?_, rfl, rfl,
            rfl, rfl, rfl, Or.inl ⟨rfl, rfl, rfl⟩⟩
          simp [updateTemplate, hf]
      | some sd =>
          rcases hbt : buildTSections sd s.nextId with ⟨secs, c⟩
          refine ⟨{ t₀ with title := ti, sections := some secs, updatedAt := now },
            c, ?_, rfl, rfl, rfl, rfl, rfl,
            Or.inr ⟨sd, rfl, by rw [hbt], by rw [hbt]⟩⟩
          simp [updateTemplate, hf, hbt]

theorem createGroupFromTemplate_some (s : Store) (now tid : Nat) (t₀ : Template)
    (hf : s.data.templates.find? (fun t => t.id == tid) = some t₀) :
    ∃ g k,
      createGroupFromTemplate s now tid =
        (some g,
         { data := { templates := s.data.templates,
                     groups := s.data.groups ++ [g] },
           nextId := s.nextId + k + 1 }) ∧
      g.id = s.nextId + k ∧
      g.templateId = some t₀.id ∧ g.status = "active" ∧ g.title = t₀.title ∧
      g.items = none ∧ g.createdAt = now ∧ g.updatedAt = now ∧
      gSectionIdList (g.sections.getD []) = List.range' s.nextId k ∧
      (∀ tsecs, t₀.sections = some tsecs →
        List.Forall₂ (fun gs ts => gs.title = ts.title ∧
          List.Forall₂ (fun gi ti => gi.text = ti.text ∧ gi.completed = false)
            gs.items ts.items) (g.sections.getD []) tsecs) ∧
      (t₀.sections = none → ∀ tits, t₀.items = some tits →
        ∃ sec, g.sections = some [sec] ∧ sec.title = "一般" ∧
          List.Forall₂ (fun gi ti => gi.text = ti.text ∧ gi.completed = false)
            sec.items tits) ∧
      (t₀.sections = none → t₀.items = none → g.sections = some []) := by
  cases hsec : t₀.sections with
  | some tsecs =>
      rcases hcs : copyGSections tsecs s.nextId with ⟨gsecs, c⟩
      have hc : c = s.nextId + tsecWeight tsecs := by
        have h0 := copyGSections_snd tsecs s.nextId
        rw [hcs] at h0
        exact h0
      subst hc
      have hids : gSectionIdList gsecs = List.range' s.nextId (tsecWeight tsecs) := by
        have h0 := copyGSections_ids tsecs s.nextId
        rw [hcs] at h0
        exact h0
      have hcontent := copyGSections_content tsecs s.nextId
      rw [hcs] at hcontent
      refine ⟨{ id := s.nextId + tsecWeight tsecs, templateId := some t₀.id,
                status := "active", title := t₀.title, sections := some gsecs,
                items := none, createdAt := now, updatedAt := now },
        tsecWeight tsecs, ?_, rfl, rfl, rfl, rfl, rfl, rfl, rfl, hids, ?_, ?_, ?_⟩
      · simp [createGroupFromTemplate, hf, hsec, hcs, _generateId]
      · intro tsecs' hts
        injection hts with hts
        subst hts
        exact hcontent
      · intro hnone
        simp at hnone
      · intro hnone
        simp at hnone
  | none =>
      cases hit : t₀.items with
      | some tits =>
          rcases hci : copyGItems tits (s.nextId + 1) with ⟨gits, c⟩
          have hc : c = s.nextId + 1 + tits.length := by
            have h0 := copyGItems_snd tits (s.nextId + 1)
            rw [hci] at h0
            exact h0
          subst hc
          have hids : gits.map GItem.id = List.range' (s.nextId + 1) tits.length := by
            have h0 := copyGItems_ids tits (s.nextId + 1)
            rw [hci] at h0
            exact h0
          have hcontent := copyGItems_content tits (s.nextId + 1)
          rw [hci] at hcontent
          refine ⟨{ id := s.nextId + 1 + tits.length, templateId := some t₀.id,
                    status := "active", title := t₀.title,
                    sections := some [⟨s.nextId, "一般", gits⟩],
                    items := none, createdAt := now, updatedAt := now },
            1 + tits.length, ?_,
            by show s.nextId + 1 + tits.length = s.nextId + (1 + tits.length); omega,
            rfl, rfl, rfl, rfl, rfl, rfl, ?_, ?_, ?_, ?_⟩
          · simp [createGroupFromTemplate, hf, hsec, hit, copyGSections, hci,
              _generateId, Nat.add_assoc]
          · simp only [Option.getD_some, gSectionIdList, List.flatMap_cons,
              List.flatMap_nil, List.append_nil, hids]
            rw [show (1 + tits.length) = tits.length + 1 by omega,
              List.range'_succ]
          · intro tsecs' hts
            simp at hts
          · intro _ tits' hti
            injection hti with hti
            subst hti
            exact ⟨_, rfl, rfl, hcontent⟩
          · intro _ hnone
            simp at hnone
      | none =>
          refine ⟨{ id := s.nextId, templateId := some t₀.id, status := "active",
                    title := t₀.title, sections := some [], items := none,
                    createdAt := now, updatedAt := now }, 0, ?_,
            by show s.nextId = s.nextId + 0; omega,
            rfl, rfl, rfl, rfl, rfl, rfl, by simp [gSectionIdList], ?_, ?_, ?_⟩
          · simp [createGroupFromTemplate, hf, hsec, hit, copyGSections,
              _generateId]
          · intro tsecs' hts
            simp at hts
          · intro _ tits' hti
            simp at hti
          · intro _ _
            rfl

theorem toggleTodoCompletion_cases (s : Store) (now gid iid : Nat) :
    ((toggleTodoCompletion s now gid iid).1 = none ∧
     (toggleTodoCompletion s now gid iid).2 = s) ∨
    ∃ g₀ g', s.data.groups.find? (fun g => g.id == gid) = some g₀ ∧
      toggleTodoCompletion s now gid iid = (some g', putGroup s gid g') ∧
      g'.id = g₀.id ∧ g'.status = g₀.status ∧ g'.title = g₀.title ∧
      g'.templateId = g₀.templateId ∧ g'.createdAt = g₀.createdAt ∧
      g'.updatedAt = now ∧ groupIds g' = groupIds g₀ := by
  cases hf : s.data.groups.find? (fun g => g.id == gid) with
  | none => exact Or.inl ⟨by simp [toggleTodoCompletion, hf],
      by simp [toggleTodoCompletion, hf]⟩
  | some g₀ =>
      cases hsec : g₀.sections with
      | some secs =>
          cases hts : toggleInSections secs iid with
          | some secs' =>
              refine Or.inr ⟨g₀,
                { g₀ with sections := some secs', updatedAt := now },
                rfl, ?_, rfl, rfl, rfl, rfl, rfl, rfl, ?_⟩
              · simp only [toggleTodoCompletion, hf, hsec, hts]
              · simp [groupIds, hsec, toggleInSections_ids _ _ _ hts]
          | none =>
              cases hit : g₀.items with
              | some its =>
                  cases hti : toggleInItems its iid with
                  | some its' =>
                      refine Or.inr ⟨g₀,
                        { g₀ with items := some its', updatedAt := now },
                        rfl, ?_, rfl, rfl, rfl, rfl, rfl, rfl, ?_⟩
                      · simp only [toggleTodoCompletion, hf, hsec, hts, hit, hti]
                      · simp [groupIds, hit, toggleInItems_ids _ _ _ hti]
                  | none =>
                      exact Or.inl
                        ⟨by simp [toggleTodoCompletion, hf, hsec, hts, hit, hti],
                         by simp [toggleTodoCompletion, hf, hsec, hts, hit, hti]⟩
              | none =>
                  exact Or.inl
                    ⟨by simp [toggleTodoCompletion, hf, hsec, hts, hit],
                     by simp [toggleTodoCompletion, hf, hsec, hts, hit]⟩
      | none =>
          cases hit : g₀.items with
          | some its =>
              cases hti : toggleInItems its iid with
              | some its' =>
                  refine Or.inr ⟨g₀,
                    { g₀ with items := some its', updatedAt := now },
                    rfl, ?_, rfl, rfl, rfl, rfl, rfl, rfl, ?_⟩
                  · simp only [toggleTodoCompletion, hf, hsec, hit, hti]
                  · simp [groupIds, hit, toggleInItems_ids _ _ _ hti]
              | none =>
                  exact Or.inl
                    ⟨by simp [toggleTodoCompletion, hf, hsec, hit, hti],
                     by simp [toggleTodoCompletion, hf, hsec, hit, hti]⟩
          | none =>
              exact Or.inl
                ⟨by simp [toggleTodoCompletion, hf, hsec, hit],
                 by simp [toggleTodoCompletion, hf, hsec, hit]⟩

theorem archiveGroup_some (s : Store) (now gid : Nat) (g₀ : Group)
    (hf : s.data.groups.find? (fun g => g.id == gid) = some g₀) :
    archiveGroup s now gid =
      (some { g₀ with status := "archived", updatedAt := now },
       putGroup s gid { g₀ with status := "archived", updatedAt := now }) := by
  simp [archiveGroup, hf]

theorem archiveGroup_none (s : Store) (now gid : Nat)
    (hf : s.data.groups.find? (fun g => g.id == gid) = none) :
    archiveGroup s now gid = (none, s) := by
  simp [archiveGroup, hf]

theorem unarchiveGroup_some (s : Store) (now gid : Nat) (g₀ : Group)
    (hf : s.data.groups.find? (fun g => g.id == gid) = some g₀) :
    unarchiveGroup s now gid =
      (some { g₀ with status := "active", updatedAt := now },
       putGroup s gid { g₀ with status := "active", updatedAt := now }) := by
  simp [unarchiveGroup, hf]

theorem unarchiveGroup_none (s : Store) (now gid : Nat)
    (hf : s.data.groups.find? (fun g => g.id == gid) = none) :
    unarchiveGroup s now gid = (none, s) := by
  simp [unarchiveGroup, hf]

theorem templateIds_lt (s : Store) (hb : ∀ i ∈ storeIds s, i < s.nextId)
    (t : Template) (ht : t ∈ s.data.templates) :
    ∀ i ∈ templateIds t, i < s.nextId := by
  intro i hi
  refine hb i ?_
  simp only [storeIds, List.mem_append, List.mem_flatMap]
  exact Or.inl ⟨t, ht, hi⟩

theorem groupIds_lt (s : Store) (hb : ∀ i ∈ storeIds s, i < s.nextId)
    (g : Group) (hg : g ∈ s.data.groups) :
    ∀ i ∈ groupIds g, i < s.nextId := by
  intro i hi
  refine hb i ?_
  simp only [storeIds, List.mem_append, List.mem_flatMap]
  exact Or.inr ⟨g, hg, hi⟩

theorem putGroup_inv (s : Store) (gid : Nat) (g₀ g' : Group)
    (hf : s.data.groups.find? (fun g => g.id == gid) = some g₀)
    (hid : g'.id = g₀.id) (hids : groupIds g' = groupIds g₀)
    (hstat : g'.status = "active" ∨ g'.status = "archived")
    (h : StoreInv s) : StoreInv (putGroup s gid g') := by
  obtain ⟨hb, hn, hs⟩ := h
  refine ⟨?_, ?_, ?_⟩
  · intro i hi
    simp only [putGroup, storeIds] at hi
    rw [replaceFirstGroup_flatMap groupIds s.data.groups gid g₀ g' hf hids] at hi
    exact hb i hi
  · simp only [putGroup, entityIds]
    rw [replaceFirstGroup_map Group.id s.data.groups gid g₀ g' hf hid]
    exact hn
  · intro g hg
    simp only [putGroup] at hg
    rcases mem_replaceFirstGroup s.data.groups gid g' g hg with h | rfl
    · exact hs g h
    · exact hstat

theorem updateTemplate_inv (s : Store) (now id : Nat) (title? : Option String)
    (sd? : Option (List SectionData)) (h : StoreInv s) :
    StoreInv (updateTemplate s now id title? sd?).2 := by
  obtain ⟨hb, hn, hs⟩ := h
  cases hf : s.data.templates.find? (fun t => t.id == id) with
  | none =>
      simp only [updateTemplate, hf]
      exact ⟨hb, hn, hs⟩
  | some t₀ =>
      obtain ⟨t', c, heq, hid, _, _, _, _, hdisj⟩ :=
        updateTemplate_some s now id title? sd? t₀ hf
      rw [heq]
      dsimp only
      have ht₀ : t₀ ∈ s.data.templates := List.mem_of_find?_eq_some hf
      have htlt := templateIds_lt s hb t₀ ht₀
      have hc_ge : s.nextId ≤ c := by
        rcases hdisj with ⟨_, _, rfl⟩ | ⟨sd, _, _, hc⟩
        · exact Nat.le_refl _
        · rw [hc, buildTSections_snd]
          omega
      refine ⟨?_, ?_, ?_⟩
      · intro i hi
        show i < c
        simp only [storeIds, List.mem_append, List.mem_flatMap] at hi
        rcases hi with ⟨x, hx, hix⟩ | ⟨g, hg, hig⟩
        · rcases mem_replaceFirstTemplate s.data.templates id t' x hx with hxl | rfl
          · have := templateIds_lt s hb x hxl i hix
            omega
          · simp only [templateIds, List.mem_cons] at hix
            rcases hix with rfl | hix
            · have h1 : t₀.id < s.nextId := htlt t₀.id (by simp [templateIds])
              rw [hid]
              omega
            · rcases hdisj with ⟨_, hsec, rfl⟩ | ⟨sd, _, hsec, hc⟩
              · rw [hsec] at hix
                have h2 : i ∈ templateIds t₀ := by
                  simp only [templateIds, List.mem_cons]
                  exact Or.inr hix
                exact htlt i h2
              · rw [hsec] at hix
                simp only [Option.getD_some] at hix
                rw [buildTSections_ids] at hix
                have := List.mem_range'_1.mp hix
                rw [hc, buildTSections_snd]
                omega
        · have := groupIds_lt s hb g hg i hig
          omega
      · simp only [entityIds]
        rw [replaceFirstTemplate_map Template.id s.data.templates id t₀ t' hf
          (by rw [hid])]
        exact hn
      · intro g hg
        exact hs g hg

theorem deleteTemplate_inv (s : Store) (id : Nat) (h : StoreInv s) :
    StoreInv (deleteTemplate s id) := by
  obtain ⟨hb, hn, hs⟩ := h
  refine ⟨?_, ?_, ?_⟩
  · intro i hi
    simp only [deleteTemplate, storeIds, List.mem_append, List.mem_flatMap] at hi
    refine hb i ?_
    simp only [storeIds, List.mem_append, List.mem_flatMap]
    rcases hi with ⟨t, ht, hit⟩ | ⟨g, hg, hig⟩
    · exact Or.inl ⟨t, List.mem_of_mem_filter ht, hit⟩
    · exact Or.inr ⟨g, hg, hig⟩
  · simp only [deleteTemplate, entityIds]
    refine List.Nodup.sublist ?_ hn
    exact List.Sublist.append
      (List.Sublist.map _ (List.filter_sublist _)) (List.Sublist.refl _)
  · intro g hg
    exact hs g hg

theorem duplicateTemplate_inv (s : Store) (now tid : Nat) (h : StoreInv s) :
    StoreInv (duplicateTemplate s now tid).2 := by
  cases hf : s.data.templates.find? (fun t => t.id == tid) with
  | none =>
      simp only [duplicateTemplate, hf]
      exact h
  | some t₀ =>
      simp only [duplicateTemplate, hf]
      exact createTemplate_inv _ _ _ _ h

theorem createGroupFromTemplate_inv (s : Store) (now tid : Nat)
    (h : StoreInv s) : StoreInv (createGroupFromTemplate s now tid).2 := by
  obtain ⟨hb, hn, hs⟩ := h
  cases hf : s.data.templates.find? (fun t => t.id == tid) with
  | none =>
      simp only [createGroupFromTemplate, hf]
      exact ⟨hb, hn, hs⟩
  | some t₀ =>
      obtain ⟨g, k, heq, hgid, _, hstat, _, hitems, _, _, hsecids, _, _, _⟩ :=
        createGroupFromTemplate_some s now tid t₀ hf
      rw [heq]
      dsimp only
      refine ⟨?_, ?_, ?_⟩
      · intro i hi
        show i < s.nextId + k + 1
        simp only [storeIds, List.mem_append, List.mem_flatMap] at hi
        rcases hi with ⟨t, ht, hit⟩ | ⟨g', hg', hig'⟩
        · have := templateIds_lt s hb t ht i hit
          omega
        · rcases hg' with hg' | hg'
          · have := groupIds_lt s hb g' hg' i hig'
            omega
          · simp only [List.mem_singleton] at hg'
            subst hg'
            simp only [groupIds, hitems, Option.getD_none, List.map_nil,
              List.append_nil, List.mem_cons] at hig'
            rcases hig' with rfl | hig'
            · omega
            · rw [hsecids] at hig'
              have := List.mem_range'_1.mp hig'
              omega
      · simp only [entityIds, List.map_append, List.map_cons, List.map_nil]
        refine nodup_entity_append_right _ _ _ hn ?_
        intro hmem
        have := hb _ (entityIds_subset_storeIds s _ hmem)
        omega
      · intro g' hg'
        rcases List.mem_append.mp hg' with hg' | hg'
        · exact hs g' hg'
        · simp only [List.mem_singleton] at hg'
          subst hg'
          exact Or.inl hstat

theorem toggleTodoCompletion_inv (s : Store) (now gid iid : Nat)
    (h : StoreInv s) : StoreInv (toggleTodoCompletion s now gid iid).2 := by
  rcases toggleTodoCompletion_cases s now gid iid with ⟨_, h2⟩ |
    ⟨g₀, g', hf, heq, hid, hstat, _, _, _, _, hids⟩
  · rw [h2]
    exact h
  · have h2 : (toggleTodoCompletion s now gid iid).2 = putGroup s gid g' := by
      rw [heq]
    rw [h2]
    refine putGroup_inv s gid g₀ g' hf hid hids ?_ h
    rw [hstat]
    exact h.2.2 g₀ (List.mem_of_find?_eq_some hf)

theorem archiveGroup_inv (s : Store) (now gid : Nat) (h : StoreInv s) :
    StoreInv (archiveGroup s now gid).2 := by
  cases hf : s.data.groups.find? (fun g => g.id == gid) with
  | none =>
      rw [archiveGroup_none s now gid hf]
      exact h
  | some g₀ =>
      rw [archiveGroup_some s now gid g₀ hf]
      exact putGroup_inv s gid g₀ _ hf rfl (by simp [groupIds]) (Or.inr rfl) h

theorem unarchiveGroup_inv (s : Store) (now gid : Nat) (h : StoreInv s) :
    StoreInv (unarchiveGroup s now gid).2 := by
  cases hf : s.data.groups.find? (fun g => g.id == gid) with
  | none =>
      rw [unarchiveGroup_none s now gid hf]
      exact h
  | some g₀ =>
      rw [unarchiveGroup_some s now gid g₀ hf]
      exact putGroup_inv s gid g₀ _ hf rfl (by simp [groupIds]) (Or.inl rfl) h

theorem deleteGroup_inv (s : Store) (gid : Nat) (h : StoreInv s) :
    StoreInv (deleteGroup s gid) := by
  obtain ⟨hb, hn, hs⟩ := h
  refine ⟨?_, ?_, ?_⟩
  · intro i hi
    simp only [deleteGroup, storeIds, List.mem_append, List.mem_flatMap] at hi
    refine hb i ?_
    simp only [storeIds, List.mem_append, List.mem_flatMap]
    rcases hi with ⟨t, ht, hit⟩ | ⟨g, hg, hig⟩
    · exact Or.inl ⟨t, ht, hit⟩
    · exact Or.inr ⟨g, List.mem_of_mem_filter hg, hig⟩
  · simp only [deleteGroup, entityIds]
    refine List.Nodup.sublist ?_ hn
    exact List.Sublist.append (List.Sublist.refl _)
      (List.Sublist.map _ (List.filter_sublist _))
  · intro g hg
    simp only [deleteGroup] at hg
    exact hs g (List.mem_of_mem_filter hg)

theorem step_inv {s s' : Store} (hstep : Step s s') (h : StoreInv s) :
    StoreInv s' := by
  cases hstep with
  | createTemplateStep now title sd => exact createTemplate_inv _ now title sd h
  | updateTemplateStep now id title? sd? =>
      exact updateTemplate_inv _ now id title? sd? h
  | deleteTemplateStep id => exact deleteTemplate_inv _ id h
  | duplicateTemplateStep now tid => exact duplicateTemplate_inv _ now tid h
  | createGroupFromTemplateStep now tid =>
      exact createGroupFromTemplate_inv _ now tid h
  | createGroupStep now title sd => exact createGroup_inv _ now title sd h
  | toggleStep now gid iid => exact toggleTodoCompletion_inv _ now gid iid h
  | archiveStep now gid => exact archiveGroup_inv _ now gid h
  | unarchiveStep now gid => exact unarchiveGroup_inv _ now gid h
  | deleteGroupStep gid => exact deleteGroup_inv _ gid h

theorem initialStore_inv : StoreInv initialStore := by
  refine ⟨?_, ?_, ?_⟩ <;>
    simp [initialStore, _getDefaultData, storeIds, entityIds]

theorem reachable_inv {s : Store} (h : Reachable s) : StoreInv s := by
  induction h with
  | refl => exact initialStore_inv
  | tail _ hstep ih => exact step_inv hstep ih

/-! ## Claim theorems -/

/-- C1: `checkAllCompleted(groupId)` returns `false` when no Group with that id
exists; for a Group whose `sections` array is present and non-empty it returns
`true` iff at least one item exists across all sections and every item in every
section has `completed = true` (a Group with zero items, or only empty
sections, is never complete); for a legacy flat Group (no `sections` field, an
`items` array) it returns `true` iff `items` is non-empty and every item is
completed. -/
theorem checkAllCompleted_spec (s : Store) (gid : Nat) :
    (s.data.groups.find? (fun g => g.id == gid) = none →
      checkAllCompleted s gid = false) ∧
    (∀ g, s.data.groups.find? (fun g => g.id == gid) = some g →
      ∀ secs, g.sections = some secs → secs ≠ [] →
      (checkAllCompleted s gid = true ↔
        ((∃ sec ∈ secs, sec.items ≠ []) ∧
         ∀ sec ∈ secs, ∀ it ∈ sec.items, it.completed = true))) ∧
    (∀ g, s.data.groups.find? (fun g => g.id == gid) = some g →
      g.sections = none → ∀ its, g.items = some its →
      (checkAllCompleted s gid = true ↔
        (its ≠ [] ∧ ∀ it ∈ its, it.completed = true))) := by
  refine ⟨?_, ?_, ?_⟩
  · intro h
    simp [checkAllCompleted, h]
  · intro g hf secs hsec hne
    have hlen : 0 < secs.length := List.length_pos.mpr hne
    rcases hloop : checkSectionsLoop secs false with ⟨hi, ad⟩
    have hval := checkSectionsLoop_spec secs false
    rw [hloop] at hval
    simp only [checkAllCompleted, hf, hsec, if_pos hlen, hloop]
    show (hi && ad) = true ↔ _
    rw [hval]
    simp [List.any_eq_true, List.all_eq_true, List.length_pos]
  · intro g hf hsec its hits
    simp only [checkAllCompleted, hf, hsec, checkLegacyCompleted, hits]
    simp [List.all_eq_true, List.length_pos]

/-- Witness for C1: on a concrete store whose single group has every item
completed, the sectioned characterization yields `checkAllCompleted = true`. -/
theorem checkAllCompleted_spec_witness :
    checkAllCompleted sampleStoreB 1 = true := by
  refine ((checkAllCompleted_spec sampleStoreB 1).2.1 sampleGroupB rfl
    [⟨2, "S", [⟨3, "x", true⟩]⟩] rfl (by decide)).mpr ?_
  exact ⟨⟨⟨2, "S", [⟨3, "x", true⟩]⟩, by decide, by decide⟩, by decide⟩

/-- C9: `load()` never propagates a fault: a missing blob and an unparsable
blob both yield the default empty state `{templates: [], groups: []}`, and a
parsed blob lacking the `templates` or `groups` key has that key normalized to
the empty array. (The embedding is a total function, so no exception can
escape.) -/
theorem loadData_spec :
    _loadData none = { templates := [], groups := [] } ∧
    (∀ e, _loadData (some (Except.error e)) = { templates := [], groups := [] }) ∧
    (∀ t? g?, _loadData (some (Except.ok ⟨t?, g?⟩)) =
      { templates := t?.getD [], groups := g?.getD [] }) ∧
    (∀ g?, (_loadData (some (Except.ok ⟨none, g?⟩))).templates = []) ∧
    (∀ t?, (_loadData (some (Except.ok ⟨t?, none⟩))).groups = []) := by
  refine ⟨rfl, fun e => rfl, fun t? g? => rfl, fun g? => rfl, fun t? => rfl⟩

/-- C2: `createGroupFromTemplate(templateId)` returns `null` and changes
nothing when the Template is absent; otherwise it appends a new Group whose
sections and items are copies of the Template's (each item with
`completed = false`), with `status = "active"`, `templateId` and `title` taken
from the source Template; a legacy flat-item Template (no `sections` field)
yields a single synthesized "一般" ("General") section; and — under the
id-counter representation invariant — the Group, Section and Item ids are
pairwise distinct and fresh with respect to every id already in the store. -/
theorem createGroupFromTemplate_spec (s : Store) (now tid : Nat) :
    (s.data.templates.find? (fun t => t.id == tid) = none →
      createGroupFromTemplate s now tid = (none, s)) ∧
    (∀ t, s.data.templates.find? (fun t => t.id == tid) = some t →
      ∃ g, (createGroupFromTemplate s now tid).1 = some g ∧
        (createGroupFromTemplate s now tid).2.data.groups =
          s.data.groups ++ [g] ∧
        (createGroupFromTemplate s now tid).2.data.templates =
          s.data.templates ∧
        g.status = "active" ∧ g.templateId = some t.id ∧ g.title = t.title ∧
        (∀ tsecs, t.sections = some tsecs →
          List.Forall₂ (fun gs ts => gs.title = ts.title ∧
            List.Forall₂ (fun gi ti => gi.text = ti.text ∧ gi.completed = false)
              gs.items ts.items) (g.sections.getD []) tsecs) ∧
        (t.sections = none → ∀ tits, t.items = some tits →
          ∃ sec, g.sections = some [sec] ∧ sec.title = "一般" ∧
            List.Forall₂ (fun gi ti => gi.text = ti.text ∧ gi.completed = false)
              sec.items tits) ∧
        ((∀ i ∈ storeIds s, i < s.nextId) →
          (groupIds g).Nodup ∧ ∀ i ∈ groupIds g, i ∉ storeIds s)) := by
  refine ⟨?_, ?_⟩
  · intro h
    simp [createGroupFromTemplate, h]
  · intro t hf
    obtain ⟨g, k, heq, hgid, htid, hstat, htitle, hitems, _, _, hsecids, hP1,
      hP2, _⟩ := createGroupFromTemplate_some s now tid t hf
    refine ⟨g, by rw [heq], by rw [heq], by rw [heq], hstat, htid, htitle,
      hP1, hP2, ?_⟩
    intro hb
    have hgl : groupIds g = g.id :: List.range' s.nextId k := by
      simp [groupIds, hitems, hsecids]
    constructor
    · rw [hgl]
      refine List.Nodup.cons ?_ (List.nodup_range' _ _)
      intro hmem
      have := List.mem_range'_1.mp hmem
      omega
    · intro i hi hmem
      rw [hgl] at hi
      have hlt := hb i hmem
      rcases List.mem_cons.mp hi with rfl | hi
      · omega
      · have := List.mem_range'_1.mp hi
        omega

/-- Witness for C2: instantiating a concrete one-section Template yields an
active Group with the Template's id recorded and duplicate-free fresh ids. -/
theorem createGroupFromTemplate_spec_witness :
    ∃ g, (createGroupFromTemplate sampleTStore 7 42).1 = some g ∧
      g.status = "active" ∧ g.templateId = some 42 ∧ (groupIds g).Nodup := by
  obtain ⟨g, h1, _, _, hstat, htid, _, _, _, hfresh⟩ :=
    (createGroupFromTemplate_spec sampleTStore 7 42).2 sampleTemplate rfl
  exact ⟨g, h1, hstat, htid, (hfresh (by decide)).1⟩

/-- C3: `createGroupFromTemplate` is a structural deep copy: the call leaves
the templates collection unchanged, and any subsequent mutation of the stored
Group object (modelled by `mutateGroup` applying an arbitrary function to it)
still leaves the templates collection — in particular the source Template —
unchanged. -/
theorem createGroupFromTemplate_deep_copy (s : Store) (now tid : Nat)
    (t : Template)
    (hf : s.data.templates.find? (fun x => x.id == tid) = some t) :
    (createGroupFromTemplate s now tid).2.data.templates = s.data.templates ∧
    (∀ g, (createGroupFromTemplate s now tid).1 = some g →
      ∀ f : Group → Group,
        (mutateGroup (createGroupFromTemplate s now tid).2 g.id f).data.templates
          = s.data.templates ∧
        (mutateGroup (createGroupFromTemplate s now tid).2 g.id
            f).data.templates.find? (fun x => x.id == tid) = some t) := by
  obtain ⟨g₀, k, heq, _, _, _, _, _, _, _, _, _, _⟩ :=
    createGroupFromTemplate_some s now tid t hf
  have htempl : (createGroupFromTemplate s now tid).2.data.templates =
      s.data.templates := by
    rw [heq]
  have hmut : ∀ (s' : Store) (gid : Nat) (f : Group → Group),
      (mutateGroup s' gid f).data.templates = s'.data.templates := by
    intro s' gid f
    cases h : s'.data.groups.find? (fun g => g.id == gid) with
    | none => simp [mutateGroup, h]
    | some g => simp [mutateGroup, h, putGroup]
  refine ⟨htempl, ?_⟩
  intro g hg f
  have h1 : (mutateGroup (createGroupFromTemplate s now tid).2 g.id
      f).data.templates = s.data.templates := by
    rw [hmut, htempl]
  exact ⟨h1, by rw [h1]; exact hf⟩

/-- Witness for C3: after instantiating the sample Template and then mutating
the resulting Group's title through its reference, the templates collection is
still exactly the original one. -/
theorem createGroupFromTemplate_deep_copy_witness :
    (mutateGroup (createGroupFromTemplate sampleTStore 7 42).2 52
      (fun g => { g with title := "mutated" })).data.templates
      = [sampleTemplate] := by
  have h := ((createGroupFromTemplate_deep_copy sampleTStore 7 42
      sampleTemplate rfl).2
    { id := 52, templateId := some 42, status := "active", title := "T",
      sections := some [⟨50, "S", [⟨51, "a", false⟩]⟩], items := none,
      createdAt := 7, updatedAt := 7 } (by rfl)
    (fun g => { g with title := "mutated" })).1
  exact h

/-- C6: `updateTemplate(id, title?, sections?)` returns `null` and changes
nothing when the id is unknown; otherwise it replaces the title (when given),
wholesale-replaces the sections array (when given) with freshly built sections
whose titles and item texts are exactly the supplied data, sets `updatedAt` to
the current time, leaves `createdAt` unchanged, and leaves the groups
collection unchanged. -/
theorem updateTemplate_spec (s : Store) (now id : Nat)
    (title? : Option String) (sd? : Option (List SectionData)) :
    (s.data.templates.find? (fun t => t.id == id) = none →
      updateTemplate s now id title? sd? = (none, s)) ∧
    (∀ t₀, s.data.templates.find? (fun t => t.id == id) = some t₀ →
      ∃ t', (updateTemplate s now id title? sd?).1 = some t' ∧
        t'.id = t₀.id ∧ t'.createdAt = t₀.createdAt ∧ t'.updatedAt = now ∧
        t'.title = title?.getD t₀.title ∧
        (∀ sd, sd? = some sd →
          t'.sections = some (buildTSections sd s.nextId).1 ∧
          List.Forall₂ (fun ts d => ts.title = d.title ∧
            ts.items.map TItem.text = d.items) (t'.sections.getD []) sd) ∧
        (sd? = none → t'.sections = t₀.sections) ∧
        (updateTemplate s now id title? sd?).2.data.templates =
          replaceFirstTemplate s.data.templates id t' ∧
        (updateTemplate s now id title? sd?).2.data.groups = s.data.groups) := by
  refine ⟨?_, ?_⟩
  · intro h
    simp [updateTemplate, h]
  · intro t₀ hf
    obtain ⟨t', c, heq, hid, hca, hup, hti, _, hdisj⟩ :=
      updateTemplate_some s now id title? sd? t₀ hf
    refine ⟨t', by rw [heq], hid, hca, hup, hti, ?_, ?_, by rw [heq],
      by rw [heq]⟩
    · intro sd hsd
      rcases hdisj with ⟨hnone, _, _⟩ | ⟨sd', hsd', hsec, _⟩
      · rw [hnone] at hsd
        simp at hsd
      · rw [hsd] at hsd'
        injection hsd' with hsd'
        subst hsd'
        refine ⟨hsec, ?_⟩
        rw [hsec]
        exact buildTSections_content sd s.nextId
    · intro hnone
      rcases hdisj with ⟨_, hsec, _⟩ | ⟨sd', hsd', _, _⟩
      · exact hsec
      · rw [hnone] at hsd'
        simp at hsd'

/-- Witness for C6: renaming the sample Template keeps `createdAt` and sets
`updatedAt` to the call time. -/
theorem updateTemplate_spec_witness :
    ∃ t', (updateTemplate sampleTStore 9 42 (some "N") none).1 = some t' ∧
      t'.title = "N" ∧ t'.updatedAt = 9 ∧ t'.createdAt = 0 := by
  obtain ⟨t', h1, _, hca, hup, hti, _, _, _, _⟩ :=
    (updateTemplate_spec sampleTStore 9 42 (some "N") none).2 sampleTemplate rfl
  exact ⟨t', h1, hti, hup, hca⟩

/-- C8: `deleteTemplate(id)` removes exactly the Templates whose id matches, is
a no-op (without error) when none matches, and leaves the groups collection —
hence every Group instantiated from the Template — completely unchanged. -/
theorem deleteTemplate_spec (s : Store) (id : Nat) :
    (∀ t, t ∈ (deleteTemplate s id).data.templates ↔
      (t ∈ s.data.templates ∧ t.id ≠ id)) ∧
    (deleteTemplate s id).data.groups = s.data.groups ∧
    ((∀ t ∈ s.data.templates, t.id ≠ id) → deleteTemplate s id = s) := by
  refine ⟨?_, rfl, ?_⟩
  · intro t
    simp [deleteTemplate, List.mem_filter, bne_iff_ne]
  · intro h
    have hfil : s.data.templates.filter (fun t => t.id != id) =
        s.data.templates :=
      List.filter_eq_self.mpr (fun t ht => by simpa [bne_iff_ne] using h t ht)
    simp only [deleteTemplate, hfil]

/-- Witness for C8: deleting an absent id from the sample store is a no-op. -/
theorem deleteTemplate_spec_witness :
    deleteTemplate sampleTStore 99 = sampleTStore :=
  (deleteTemplate_spec sampleTStore 99).2.2 (by decide)

theorem replaceFirstGroup_twice :
    ∀ (l : List Group) (gid : Nat) (g₁ g₂ : Group), g₁.id = gid →
      replaceFirstGroup (replaceFirstGroup l gid g₁) gid g₂ =
        replaceFirstGroup l gid g₂ := by
  intro l
  induction l with
  | nil => intro gid g₁ g₂ h; rfl
  | cons x rest ih =>
      intro gid g₁ g₂ h
      by_cases hx : x.id == gid
      · simp only [replaceFirstGroup, if_pos hx]
        simp only [replaceFirstGroup,
          if_pos (show (g₁.id == gid) = true by simp [h])]
      · simp only [replaceFirstGroup, if_neg hx]
        rw [ih gid g₁ g₂ h]

theorem toggleTodoCompletion_eq_sections (s : Store) (now gid iid : Nat)
    (G : Group) (secs secs' : List GSection)
    (hf : s.data.groups.find? (fun x => x.id == gid) = some G)
    (hsec : G.sections = some secs)
    (hts : toggleInSections secs iid = some secs') :
    toggleTodoCompletion s now gid iid =
      (some { G with sections := some secs', updatedAt := now },
       putGroup s gid { G with sections := some secs', updatedAt := now }) := by
  simp only [toggleTodoCompletion, hf, hsec, hts]

theorem toggleTodoCompletion_eq_legacy_sec (s : Store) (now gid iid : Nat)
    (G : Group) (secs : List GSection) (its its' : List GItem)
    (hf : s.data.groups.find? (fun x => x.id == gid) = some G)
    (hsec : G.sections = some secs) (hts : toggleInSections secs iid = none)
    (hits : G.items = some its) (hti : toggleInItems its iid = some its') :
    toggleTodoCompletion s now gid iid =
      (some { G with items := some its', updatedAt := now },
       putGroup s gid { G with items := some its', updatedAt := now }) := by
  simp only [toggleTodoCompletion, hf, hsec, hts, hits, hti]

theorem toggleTodoCompletion_eq_legacy_nosec (s : Store) (now gid iid : Nat)
    (G : Group) (its its' : List GItem)
    (hf : s.data.groups.find? (fun x => x.id == gid) = some G)
    (hsec : G.sections = none)
    (hits : G.items = some its) (hti : toggleInItems its iid = some its') :
    toggleTodoCompletion s now gid iid =
      (some { G with items := some its', updatedAt := now },
       putGroup s gid { G with items := some its', updatedAt := now }) := by
  simp only [toggleTodoCompletion, hf, hsec, hits, hti]

/-- C4: toggling the same reachable item twice returns the Group (in
particular the item's `completed` flag) to its state before the first call,
except for `updatedAt`; both calls set `updatedAt` to the (monotone) clock, so
it never decreases. -/
theorem toggleTodoCompletion_twice (s : Store) (now₁ now₂ gid iid : Nat)
    (g : Group)
    (hf : s.data.groups.find? (fun x => x.id == gid) = some g)
    (hreach : itemReachable g iid)
    (h₁ : g.updatedAt ≤ now₁) (h₂ : now₁ ≤ now₂) :
    ∃ g₁, (toggleTodoCompletion s now₁ gid iid).1 = some g₁ ∧
      g.updatedAt ≤ g₁.updatedAt ∧ g₁.updatedAt ≤ now₂ ∧
      (toggleTodoCompletion (toggleTodoCompletion s now₁ gid iid).2
        now₂ gid iid).1 = some { g with updatedAt := now₂ } ∧
      (toggleTodoCompletion (toggleTodoCompletion s now₁ gid iid).2
        now₂ gid iid).2.data.groups =
        replaceFirstGroup s.data.groups gid { g with updatedAt := now₂ } := by
  have hgid : g.id = gid := by
    have := List.find?_some hf
    simpa using this
  cases hsec : g.sections with
  | some secs =>
      cases hts : toggleInSections secs iid with
      | some secs' =>
          have hts₂ := toggleInSections_twice _ _ _ hts
          have heq₁ := toggleTodoCompletion_eq_sections s now₁ gid iid g secs
            secs' hf hsec hts
          have heq₁a : (toggleTodoCompletion s now₁ gid iid).1 =
              some { g with sections := some secs', updatedAt := now₁ } := by
            rw [heq₁]
          have heq₁b : (toggleTodoCompletion s now₁ gid iid).2 =
              putGroup s gid { g with sections := some secs', updatedAt := now₁ } := by
            rw [heq₁]
          have hfind₁ : (putGroup s gid { g with sections := some secs', updatedAt := now₁ }).data.groups.find? (fun x => x.id == gid) =
              some { g with sections := some secs', updatedAt := now₁ } :=
            find?_replaceFirstGroup s.data.groups gid g _ hf hgid
          have heq₂ := toggleTodoCompletion_eq_sections
            (putGroup s gid { g with sections := some secs', updatedAt := now₁ })
            now₂ gid iid { g with sections := some secs', updatedAt := now₁ }
            secs' secs hfind₁ rfl hts₂
          refine ⟨{ g with sections := some secs', updatedAt := now₁ },
            heq₁a, h₁, h₂, ?_, ?_⟩
          · rw [heq₁b]
            rw [show (toggleTodoCompletion (putGroup s gid { g with sections := some secs', updatedAt := now₁ }) now₂ gid iid).1 = some { { g with sections := some secs', updatedAt := now₁ } with sections := some secs, updatedAt := now₂ } from by rw [heq₂]]
          · rw [heq₁b]
            rw [show (toggleTodoCompletion (putGroup s gid { g with sections := some secs', updatedAt := now₁ }) now₂ gid iid).2 = putGroup (putGroup s gid { g with sections := some secs', updatedAt := now₁ }) gid { { g with sections := some secs', updatedAt := now₁ } with sections := some secs, updatedAt := now₂ } from by rw [heq₂]]
            simp only [putGroup]
            rw [replaceFirstGroup_twice s.data.groups gid
              { g with sections := some secs', updatedAt := now₁ } _ hgid]
      | none =>
          have hitem : ∃ it ∈ g.items.getD [], it.id = iid := by
            rcases hreach with ⟨sec, hsecmem, hit⟩ | h
            · exfalso
              rw [hsec] at hsecmem
              rcases toggleInSections_isSome secs iid
                ⟨sec, by simpa using hsecmem, hit⟩ with ⟨secs', h'⟩
              rw [hts] at h'
              simp at h'
            · exact h
          obtain ⟨its, hits⟩ : ∃ its, g.items = some its := by
            rcases hitem with ⟨it, hmem, _⟩
            cases hgi : g.items with
            | none => rw [hgi] at hmem; simp at hmem
            | some its => exact ⟨its, rfl⟩
          rw [hits] at hitem
          simp only [Option.getD_some] at hitem
          obtain ⟨its', hti⟩ := toggleInItems_isSome its iid hitem
          have hti₂ : toggleInItems its' iid = some its :=
            toggleInItems_twice _ _ _ hti
          have heq₁ := toggleTodoCompletion_eq_legacy_sec s now₁ gid iid g secs
            its its' hf hsec hts hits hti
          have heq₁a : (toggleTodoCompletion s now₁ gid iid).1 =
              some { g with items := some its', updatedAt := now₁ } := by
            rw [heq₁]
          have heq₁b : (toggleTodoCompletion s now₁ gid iid).2 =
              putGroup s gid { g with items := some its', updatedAt := now₁ } := by
            rw [heq₁]
          have hfind₁ : (putGroup s gid { g with items := some its', updatedAt := now₁ }).data.groups.find? (fun x => x.id == gid) =
              some { g with items := some its', updatedAt := now₁ } :=
            find?_replaceFirstGroup s.data.groups gid g _ hf hgid
          have heq₂ := toggleTodoCompletion_eq_legacy_sec
            (putGroup s gid { g with items := some its', updatedAt := now₁ })
            now₂ gid iid { g with items := some its', updatedAt := now₁ }
            secs its' its hfind₁ hsec hts rfl hti₂
          refine ⟨{ g with items := some its', updatedAt := now₁ },
            heq₁a, h₁, h₂, ?_, ?_⟩
          · rw [heq₁b]
            rw [show (toggleTodoCompletion (putGroup s gid { g with items := some its', updatedAt := now₁ }) now₂ gid iid).1 = some { { g with items := some its', updatedAt := now₁ } with items := some its, updatedAt := now₂ } from by rw [heq₂]]
            rw [hsec, hits]
          · rw [heq₁b]
            rw [show (toggleTodoCompletion (putGroup s gid { g with items := some its', updatedAt := now₁ }) now₂ gid iid).2 = putGroup (putGroup s gid { g with items := some its', updatedAt := now₁ }) gid { { g with items := some its', updatedAt := now₁ } with items := some its, updatedAt := now₂ } from by rw [heq₂]]
            simp only [putGroup]
            rw [replaceFirstGroup_twice s.data.groups gid
              { g with items := some its', updatedAt := now₁ } _ hgid]
            rw [hsec, hits]
  | none =>
      have hitem : ∃ it ∈ g.items.getD [], it.id = iid := by
        rcases hreach with ⟨sec, hsecmem, _⟩ | h
        · rw [hsec] at hsecmem
          simp at hsecmem
        · exact h
      obtain ⟨its, hits⟩ : ∃ its, g.items = some its := by
        rcases hitem with ⟨it, hmem, _⟩
        cases hgi : g.items with
        | none => rw [hgi] at hmem; simp at hmem
        | some its => exact ⟨its, rfl⟩
      rw [hits] at hitem
      simp only [Option.getD_some] at hitem
      obtain ⟨its', hti⟩ := toggleInItems_isSome its iid hitem
      have hti₂ : toggleInItems its' iid = some its :=
        toggleInItems_twice _ _ _ hti
      have heq₁ := toggleTodoCompletion_eq_legacy_nosec s now₁ gid iid g
        its its' hf hsec hits hti
      have heq₁a : (toggleTodoCompletion s now₁ gid iid).1 =
          some { g with items := some its', updatedAt := now₁ } := by
        rw [heq₁]
      have heq₁b : (toggleTodoCompletion s now₁ gid iid).2 =
          putGroup s gid { g with items := some its', updatedAt := now₁ } := by
        rw [heq₁]
      have hfind₁ : (putGroup s gid { g with items := some its', updatedAt := now₁ }).data.groups.find? (fun x => x.id == gid) =
          some { g with items := some its', updatedAt := now₁ } :=
        find?_replaceFirstGroup s.data.groups gid g _ hf hgid
      have heq₂ := toggleTodoCompletion_eq_legacy_nosec
        (putGroup s gid { g with items := some its', updatedAt := now₁ })
        now₂ gid iid { g with items := some its', updatedAt := now₁ }
        its' its hfind₁ hsec rfl hti₂
      refine ⟨{ g with items := some its', updatedAt := now₁ },
        heq₁a, h₁, h₂, ?_, ?_⟩
      · rw [heq₁b]
        rw [show (toggleTodoCompletion (putGroup s gid { g with items := some its', updatedAt := now₁ }) now₂ gid iid).1 = some { { g with items := some its', updatedAt := now₁ } with items := some its, updatedAt := now₂ } from by rw [heq₂]]
        rw [hsec, hits]
      · rw [heq₁b]
        rw [show (toggleTodoCompletion (putGroup s gid { g with items := some its', updatedAt := now₁ }) now₂ gid iid).2 = putGroup (putGroup s gid { g with items := some its', updatedAt := now₁ }) gid { { g with items := some its', updatedAt := now₁ } with items := some its, updatedAt := now₂ } from by rw [heq₂]]
        simp only [putGroup]
        rw [replaceFirstGroup_twice s.data.groups gid
          { g with items := some its', updatedAt := now₁ } _ hgid]
        rw [hsec, hits]

/-- Witness for C4: toggling the single item of the sample group at times 5
and 6 returns the group to its original `completed` state with
`updatedAt = 6`. -/
theorem toggleTodoCompletion_twice_witness :
    (toggleTodoCompletion (toggleTodoCompletion sampleStore1 5 1 3).2
      6 1 3).1 = some { sampleGroupA with updatedAt := 6 } := by
  obtain ⟨g₁, _, _, _, h4, _⟩ :=
    toggleTodoCompletion_twice sampleStore1 5 6 1 3 sampleGroupA rfl
      (by exact Or.inl ⟨⟨2, "S", [⟨3, "x", false⟩]⟩, by decide, ⟨3, "x", false⟩,
        by decide, rfl⟩)
      (by decide) (by decide)
  exact h4

/-- C5: in every reachable store state every Group's status is `"active"` or
`"archived"`; status changes only through `archiveGroup`/`unarchiveGroup`
(toggling preserves every group's `(id, status)` pair, template operations
leave the groups untouched, the create operations only append `"active"`
groups, deletion only filters, and archive/unarchive set exactly `"archived"`
and `"active"`); `getGroups "all"` returns every Group and any other filter
returns exactly the Groups whose status equals the filter string, so
`getGroups "active"` excludes archived groups and vice versa. -/
theorem getGroups_status_spec :
    (∀ s, Reachable s → ∀ g ∈ s.data.groups,
      g.status = "active" ∨ g.status = "archived") ∧
    (∀ s : Store, getGroups s "all" = s.data.groups) ∧
    (∀ (s : Store) (filt : String), filt ≠ "all" →
      getGroups s filt = s.data.groups.filter (fun g => g.status == filt)) ∧
    (∀ (s : Store) (g : Group), g ∈ getGroups s "active" →
      g.status = "active") ∧
    (∀ (s : Store) (g : Group), g ∈ getGroups s "archived" →
      g.status = "archived") ∧
    (∀ (s : Store) (now gid iid : Nat),
      (toggleTodoCompletion s now gid iid).2.data.groups.map
        (fun g => (g.id, g.status)) =
      s.data.groups.map (fun g => (g.id, g.status))) ∧
    (∀ (s : Store) (now id : Nat) (title : String) (title? : Option String)
        (sd : List SectionData) (sd? : Option (List SectionData)),
      (createTemplate s now title sd).2.data.groups = s.data.groups ∧
      (updateTemplate s now id title? sd?).2.data.groups = s.data.groups ∧
      (deleteTemplate s id).data.groups = s.data.groups ∧
      (duplicateTemplate s now id).2.data.groups = s.data.groups) ∧
    (∀ (s : Store) (now tid : Nat) (title : String) (sd : List SectionData),
      ((createGroupFromTemplate s now tid).2.data.groups = s.data.groups ∨
        ∃ g, (createGroupFromTemplate s now tid).2.data.groups =
          s.data.groups ++ [g] ∧ g.status = "active") ∧
      (createGroup s now title sd).2.data.groups =
        s.data.groups ++ [(createGroup s now title sd).1] ∧
      (createGroup s now title sd).1.status = "active") ∧
    (∀ (s : Store) (gid : Nat), (deleteGroup s gid).data.groups =
      s.data.groups.filter (fun g => g.id != gid)) ∧
    (∀ (s : Store) (now gid : Nat) (g' : Group),
      ((archiveGroup s now gid).1 = some g' → g'.status = "archived") ∧
      ((unarchiveGroup s now gid).1 = some g' → g'.status = "active")) := by
  refine ⟨?_, ?_, ?_, ?_, ?_, ?_, ?_, ?_, ?_, ?_⟩
  · intro s hreach
    exact (reachable_inv hreach).2.2
  · intro s
    simp [getGroups]
  · intro s filt h
    simp [getGroups, h]
  · intro s g hg
    simp only [getGroups, if_neg (by simp : ¬("active" == "all") = true)] at hg
    have := List.of_mem_filter hg
    simpa using this
  · intro s g hg
    simp only [getGroups, if_neg (by simp : ¬("archived" == "all") = true)] at hg
    have := List.of_mem_filter hg
    simpa using this
  · intro s now gid iid
    rcases toggleTodoCompletion_cases s now gid iid with ⟨_, h2⟩ |
      ⟨g₀, g', hf, heq, hid, hstat, _, _, _, _, _⟩
    · rw [h2]
    · have h2 : (toggleTodoCompletion s now gid iid).2 = putGroup s gid g' := by
        rw [heq]
      rw [h2]
      simp only [putGroup]
      exact replaceFirstGroup_map _ s.data.groups gid g₀ g' hf
        (by rw [hid, hstat])
  · intro s now id title title? sd sd?
    refine ⟨rfl, ?_, rfl, ?_⟩
    · cases hf : s.data.templates.find? (fun t => t.id == id) with
      | none => simp [updateTemplate, hf]
      | some t₀ =>
          obtain ⟨t', c, heq, _⟩ := updateTemplate_some s now id title? sd? t₀ hf
          rw [heq]
    · cases hf : s.data.templates.find? (fun t => t.id == id) with
      | none => simp [duplicateTemplate, hf]
      | some t₀ => simp [duplicateTemplate, hf, createTemplate]
  · intro s now tid title sd
    refine ⟨?_, rfl, rfl⟩
    cases hf : s.data.templates.find? (fun t => t.id == tid) with
    | none =>
        left
        simp [createGroupFromTemplate, hf]
    | some t₀ =>
        right
        obtain ⟨g, k, heq, _, _, hstat, _⟩ :=
          createGroupFromTemplate_some s now tid t₀ hf
        exact ⟨g, by rw [heq], hstat⟩
  · intro s gid
    rfl
  · intro s now gid g'
    constructor
    · intro h
      cases hf : s.data.groups.find? (fun g => g.id == gid) with
      | none => rw [archiveGroup_none s now gid hf] at h; simp at h
      | some g₀ =>
          rw [archiveGroup_some s now gid g₀ hf] at h
          injection h with h
          rw [← h]
    · intro h
      cases hf : s.data.groups.find? (fun g => g.id == gid) with
      | none => rw [unarchiveGroup_none s now gid hf] at h; simp at h
      | some g₀ =>
          rw [unarchiveGroup_some s now gid g₀ hf] at h
          injection h with h
          rw [← h]

/-- Witness for C5: the archived filter on a concrete mixed store returns
exactly the archived group, and a one-step-reachable store satisfies the
status invariant. -/
theorem getGroups_status_spec_witness :
    getGroups sampleStoreC "archived" = [sampleGroupArch] ∧
    (∀ g ∈ ((createGroup initialStore 3 "quick" []).2).data.groups,
      g.status = "active" ∨ g.status = "archived") := by
  constructor
  · rw [getGroups_status_spec.2.2.1 sampleStoreC "archived" (by decide)]
    rfl
  · exact getGroups_status_spec.1 _
      (Relation.ReflTransGen.single (Step.createGroupStep initialStore 3
        "quick" []))

/-- C7: a Template returned by `createTemplate` carries an id distinct from
every Template already in the store, immediately afterwards `getTemplates`
contains exactly one Template with that id, and in every reachable state the
entity-level ids of all Templates and Groups are pairwise distinct. -/
theorem createTemplate_id_unique (s : Store) (hreach : Reachable s) :
    (∀ (now : Nat) (title : String) (sd : List SectionData),
      (createTemplate s now title sd).1.id ∉
        s.data.templates.map Template.id ∧
      ((getTemplates (createTemplate s now title sd).2).filter
        (fun t => t.id == (createTemplate s now title sd).1.id)).length = 1) ∧
    (entityIds s).Nodup := by
  obtain ⟨hb, hn, _⟩ := reachable_inv hreach
  refine ⟨?_, hn⟩
  intro now title sd
  rcases hbt : buildTSections sd s.nextId with ⟨secs, c⟩
  have hc : c = s.nextId + sd.length := by
    have h0 := buildTSections_snd sd s.nextId
    rw [hbt] at h0
    exact h0
  have hid : (createTemplate s now title sd).1.id = c := by
    simp [createTemplate, hbt, _generateId]
  have hfresh : ∀ t ∈ s.data.templates, t.id ≠ c := by
    intro t ht heq2
    have : t.id < s.nextId := templateIds_lt s hb t ht t.id (by simp [templateIds])
    omega
  constructor
  · rw [hid]
    intro hmem
    simp only [List.mem_map] at hmem
    obtain ⟨t, ht, hteq⟩ := hmem
    exact hfresh t ht hteq
  · rw [hid]
    have htempl : getTemplates (createTemplate s now title sd).2 =
        s.data.templates ++ [(createTemplate s now title sd).1] := by
      simp [getTemplates, createTemplate, hbt, _generateId]
    rw [htempl, List.filter_append]
    have hnil : s.data.templates.filter (fun t => t.id == c) = [] := by
      rw [List.filter_eq_nil_iff]
      intro t ht
      simp [hfresh t ht]
    have hone : [(createTemplate s now title sd).1].filter
        (fun t => t.id == c) = [(createTemplate s now title sd).1] := by
      simp [List.filter_cons, hid]
    rw [hnil, hone]
    simp

/-- Witness for C7: creating a template in the fresh store leaves exactly one
template with the new id. -/
theorem createTemplate_id_unique_witness :
    ((getTemplates (createTemplate initialStore 1 "w" []).2).filter
      (fun t => t.id == (createTemplate initialStore 1 "w" []).1.id)).length
      = 1 :=
  ((createTemplate_id_unique initialStore Relation.ReflTransGen.refl).1
    1 "w" []).2

/-- C10: for a Template whose `sections` field is present but empty and which
also carries a legacy flat `items` array, `createGroupFromTemplate` produces a
Group with an empty sections list (no "一般"/"General" section, legacy items
dropped), while `duplicateTemplate` on the same Template does synthesize a
"一般" section carrying the legacy item texts: its legacy check also fires on
an empty `sections` array, whereas `createGroupFromTemplate`'s fires only when
the field is absent. -/
theorem emptySections_legacy_asymmetry (s : Store) (now tid : Nat)
    (t : Template) (tits : List TItem)
    (hf : s.data.templates.find? (fun x => x.id == tid) = some t)
    (hsec : t.sections = some []) (hit : t.items = some tits) :
    (∃ g, (createGroupFromTemplate s now tid).1 = some g ∧
      g.sections = some []) ∧
    (∃ nt, (duplicateTemplate s now tid).1 = some nt ∧
      ∃ sec, nt.sections = some [sec] ∧ sec.title = "一般" ∧
        sec.items.map TItem.text = tits.map TItem.text) := by
  constructor
  · refine ⟨⟨s.nextId, some t.id, "active", t.title, some [], none, now, now⟩,
      ?_, rfl⟩
    simp [createGroupFromTemplate, hf, hsec, hit, copyGSections, _generateId]
  · refine ⟨⟨s.nextId + 1, t.title ++ " のコピー",
      some [⟨s.nextId, "一般", (tits.map (fun i => i.text)).map
        (fun text => ⟨text⟩)⟩], none, now, now⟩, ?_,
      ⟨s.nextId, "一般", (tits.map (fun i => i.text)).map
        (fun text => ⟨text⟩)⟩, rfl, rfl, ?_⟩
    · simp [duplicateTemplate, hf, hsec, hit, createTemplate, buildTSections,
        buildTSection, _generateId]
    · simp [List.map_map, Function.comp_def]

/-- Witness for C10: on a concrete Template with `sections = []` and one
legacy item, instantiation yields a Group with no sections while duplication
synthesizes the "一般" section. -/
theorem emptySections_legacy_asymmetry_witness :
    (∃ g, (createGroupFromTemplate sampleLegacyStore 2 77).1 = some g ∧
      g.sections = some []) ∧
    (∃ nt, (duplicateTemplate sampleLegacyStore 2 77).1 = some nt ∧
      ∃ sec, nt.sections = some [sec] ∧ sec.title = "一般" ∧
        sec.items.map TItem.text = [⟨"p"⟩].map TItem.text) :=
  emptySections_legacy_asymmetry sampleLegacyStore 2 77 sampleLegacyT
    [⟨"p"⟩] rfl rfl rfl

end TodoStore
